import Mathlib

/-!
# Diffie-Hellman shared secret (libtomcrypt, `dh_shared_secret.c`)

A shallow embedding of `dh_shared_secret` and the properties stated about it.

* C `int` values (error codes, key type, comparison results) are `Int`.
* Multi-precision integers (`void *` handles of the math descriptor) are `Nat`:
  every field of a DH key is a non-negative integer.
* `unsigned long` byte counts are `Nat`; they count bytes of an in-memory
  integer, no arithmetic is done on them, so no wrap-around can occur.
* The output buffer is the list of the bytes that start at `out`.
* A pointer argument is an `Option`: `none` is the null pointer.
* The collaborators the function calls (`ltc_mp_*` of the pluggable math
  descriptor, and `dh_check_pubkey`) are a parameter, `Engine`; each is called
  at most once per run, so a function value fixes one behaviour of it.
* Every run records the collaborator calls it makes, in order.
-/

namespace DH

/-! ## Constants of `tomcrypt.h` / `tomcrypt_math.h` -/

/-- Error code: success. -/
def CRYPT_OK : Int := 0
/-- Error code: not enough space for output. -/
def CRYPT_BUFFER_OVERFLOW : Int := 6
/-- Error code: out of memory. -/
def CRYPT_MEM : Int := 13
/-- Error code: the two keys are not of the same group. -/
def CRYPT_PK_TYPE_MISMATCH : Int := 14
/-- Error code: a private key is required. -/
def CRYPT_PK_NOT_PRIVATE : Int := 15
/-- Error code: generic invalid argument. -/
def CRYPT_INVALID_ARG : Int := 16

/-- Key type: public key. -/
def PK_PUBLIC : Int := 0
/-- Key type: private key. -/
def PK_PRIVATE : Int := 1

/-- Comparison result: less than. -/
def LTC_MP_LT : Int := -1
/-- Comparison result: equal. -/
def LTC_MP_EQ : Int := 0
/-- Comparison result: greater than. -/
def LTC_MP_GT : Int := 1

/-! ## Data model -/

/-- The `dh_key` structure: the key type and the four big integers. -/
structure dh_key where
  type : Int
  x : Nat
  y : Nat
  base : Nat
  prime : Nat
deriving DecidableEq, Repr

/-- The collaborators `dh_shared_secret` calls. `ltc_mp_init` is the error code
of initialising the temporary; `ltc_mp_exptmod a b c` gives the error code and
the value stored in the destination; `ltc_mp_to_unsigned_bin v buf` gives the
error code and the buffer as the call leaves it. -/
structure Engine where
  ltc_mp_cmp : Nat → Nat → Int
  ltc_mp_init : Int
  dh_check_pubkey : dh_key → Int
  ltc_mp_exptmod : Nat → Nat → Nat → Int × Nat
  ltc_mp_unsigned_bin_size : Nat → Nat
  ltc_mp_to_unsigned_bin : Nat → List Nat → Int × List Nat

/-- A collaborator call, as recorded in the trace of a run. -/
inductive Call where
  | mp_cmp
  | mp_init
  | check_pubkey
  | mp_exptmod
  | mp_unsigned_bin_size
  | mp_to_unsigned_bin
  | mp_clear
deriving DecidableEq, Repr

/-- What a call leaves behind: the returned code, the memory behind `out` and
`outlen`, and the collaborator calls made. -/
structure Outcome where
  err : Int
  out : Option (List Nat)
  outlen : Option Nat
  calls : List Call
deriving DecidableEq, Repr

/-! ## The function -/

/-- The `error:` label: release the temporary, return `err`. -/
def error_exit (err : Int) (out : List Nat) (outlen : Nat) (calls : List Call) : Outcome :=
  ⟨err, some out, some outlen, calls ++ [Call.mp_clear]⟩

/-- The function `dh_shared_secret` of `dh_shared_secret.c`.
Modelled from the spec: `LTC_ARGCHK` (its macro is not part of the sources)
reports an absent argument as `CRYPT_INVALID_ARG`. -/
def dh_shared_secret (E : Engine) (private_key public_key : Option dh_key)
    (out : Option (List Nat)) (outlen : Option Nat) : Outcome :=
  match private_key, public_key, out, outlen with
  | some priv, some pub, some buf, some len =>
    -- types valid?
    if priv.type ≠ PK_PRIVATE then
      ⟨CRYPT_PK_NOT_PRIVATE, some buf, some len, []⟩
    -- same DH group?
    else if E.ltc_mp_cmp priv.prime pub.prime ≠ LTC_MP_EQ then
      ⟨CRYPT_PK_TYPE_MISMATCH, some buf, some len, [Call.mp_cmp]⟩
    else if E.ltc_mp_cmp priv.base pub.base ≠ LTC_MP_EQ then
      ⟨CRYPT_PK_TYPE_MISMATCH, some buf, some len, [Call.mp_cmp, Call.mp_cmp]⟩
    -- init big numbers
    else if E.ltc_mp_init ≠ CRYPT_OK then
      ⟨E.ltc_mp_init, some buf, some len, [Call.mp_cmp, Call.mp_cmp, Call.mp_init]⟩
    -- check public key
    else if E.dh_check_pubkey pub ≠ CRYPT_OK then
      error_exit (E.dh_check_pubkey pub) buf len
        [Call.mp_cmp, Call.mp_cmp, Call.mp_init, Call.check_pubkey]
    -- compute tmp = y^x mod p
    else if (E.ltc_mp_exptmod pub.y priv.x priv.prime).1 ≠ CRYPT_OK then
      error_exit (E.ltc_mp_exptmod pub.y priv.x priv.prime).1 buf len
        [Call.mp_cmp, Call.mp_cmp, Call.mp_init, Call.check_pubkey, Call.mp_exptmod]
    else
      let tmp := (E.ltc_mp_exptmod pub.y priv.x priv.prime).2
      -- enough space for output?
      let x := E.ltc_mp_unsigned_bin_size tmp
      if len < x then
        error_exit CRYPT_BUFFER_OVERFLOW buf x
          [Call.mp_cmp, Call.mp_cmp, Call.mp_init, Call.check_pubkey, Call.mp_exptmod,
            Call.mp_unsigned_bin_size]
      else if (E.ltc_mp_to_unsigned_bin tmp buf).1 ≠ CRYPT_OK then
        error_exit (E.ltc_mp_to_unsigned_bin tmp buf).1 (E.ltc_mp_to_unsigned_bin tmp buf).2 len
          [Call.mp_cmp, Call.mp_cmp, Call.mp_init, Call.check_pubkey, Call.mp_exptmod,
            Call.mp_unsigned_bin_size, Call.mp_to_unsigned_bin]
      else
        error_exit CRYPT_OK (E.ltc_mp_to_unsigned_bin tmp buf).2 x
          [Call.mp_cmp, Call.mp_cmp, Call.mp_init, Call.check_pubkey, Call.mp_exptmod,
            Call.mp_unsigned_bin_size, Call.mp_to_unsigned_bin]
  | _, _, _, _ => ⟨CRYPT_INVALID_ARG, out, outlen, []⟩

/-! ## The collaborators as the specification describes them -/

/-- Little-endian base-256 digits of `v`, by recursion on a fuel. -/
def le_bytes_fuel : Nat → Nat → List Nat
  | 0, _ => []
  | fuel + 1, v => if v = 0 then [] else (v % 256) :: le_bytes_fuel fuel (v / 256)

/-- Modelled from the spec: the minimal unsigned big-endian encoding of an
integer, most significant byte first, no leading zero byte (what
`bigint_to_unsigned_bytes` produces; the encoder is not part of the sources). -/
def be_bytes (v : Nat) : List Nat := (le_bytes_fuel v v).reverse

/-- Modelled from the spec: the minimal unsigned byte length of an integer
(`bigint_unsigned_byte_length`; not part of the sources). -/
def unsigned_bin_size (v : Nat) : Nat := (be_bytes v).length

/-- The value of an unsigned big-endian byte sequence. -/
def be_value (bs : List Nat) : Nat := bs.foldl (fun acc b => acc * 256 + b) 0

/-- Modelled from the spec: the public-key validator `dh_check_pubkey` (not
part of the sources) checks that the value lies within `[2, prime - 2]`. -/
def dh_check_pubkey (key : dh_key) : Int :=
  if 2 ≤ key.y ∧ key.y + 2 ≤ key.prime then CRYPT_OK else CRYPT_INVALID_ARG

/-- Modelled from the spec: the big-integer engine and the validator (neither is
part of the sources) as correct collaborators that never fail: value comparison,
`base ^ exponent mod modulus`, minimal byte length, and a minimal big-endian
encoding written at the start of the buffer. -/
def ltc_mp : Engine where
  ltc_mp_cmp a b := if a < b then LTC_MP_LT else if a = b then LTC_MP_EQ else LTC_MP_GT
  ltc_mp_init := CRYPT_OK
  dh_check_pubkey := dh_check_pubkey
  ltc_mp_exptmod a b c := (CRYPT_OK, a ^ b % c)
  ltc_mp_unsigned_bin_size := unsigned_bin_size
  ltc_mp_to_unsigned_bin v buf := (CRYPT_OK, be_bytes v ++ buf.drop (unsigned_bin_size v))

/-- Modelled from the spec: the contract of the big-integer engine (not part of
the sources). Comparison is by value; a successful `ltc_mp_exptmod` stores
`base ^ exponent mod modulus`; `ltc_mp_unsigned_bin_size` is the minimal byte
length; a successful `ltc_mp_to_unsigned_bin` writes the minimal big-endian
encoding at the start of the buffer and nothing else. -/
structure Engine.Faithful (E : Engine) : Prop where
  cmp_eq : ∀ a b, E.ltc_mp_cmp a b = LTC_MP_EQ ↔ a = b
  exptmod_ok : ∀ a b c, (E.ltc_mp_exptmod a b c).1 = CRYPT_OK →
    (E.ltc_mp_exptmod a b c).2 = a ^ b % c
  size_eq : ∀ v, E.ltc_mp_unsigned_bin_size v = unsigned_bin_size v
  write_ok : ∀ v buf, (E.ltc_mp_to_unsigned_bin v buf).1 = CRYPT_OK →
    (E.ltc_mp_to_unsigned_bin v buf).2 = be_bytes v ++ buf.drop (unsigned_bin_size v)

/-- The reference engine, except that `ltc_mp_to_unsigned_bin` stores the lowest
byte of the value at the start of the buffer and then reports `CRYPT_MEM`. -/
def ltc_mp_write_fails : Engine :=
  { ltc_mp with ltc_mp_to_unsigned_bin := fun v buf => (CRYPT_MEM, (v % 256) :: buf.drop 1) }

/-- Modelled from the spec: the contract of the public-key validator (not part
of the sources): it accepts a key only if its value lies within
`[2, prime - 2]`. -/
def Engine.Validates (E : Engine) : Prop :=
  ∀ key, E.dh_check_pubkey key = CRYPT_OK → 2 ≤ key.y ∧ key.y + 2 ≤ key.prime

/-- The reference engine, except that `ltc_mp_init` reports `CRYPT_MEM` (no
memory for the temporary). -/
def ltc_mp_init_fails : Engine := { ltc_mp with ltc_mp_init := CRYPT_MEM }

/-- The error of the first failing step in the sequence role check, group check,
public-key validation, exponentiation, buffer-size check, written after the
words of the specification; `none` when every step of that sequence passes. -/
def claimed_first_failing_step (E : Engine) (priv pub : dh_key) (len : Nat) : Option Int :=
  if priv.type ≠ PK_PRIVATE then some CRYPT_PK_NOT_PRIVATE
  else if E.ltc_mp_cmp priv.prime pub.prime ≠ LTC_MP_EQ
      ∨ E.ltc_mp_cmp priv.base pub.base ≠ LTC_MP_EQ then some CRYPT_PK_TYPE_MISMATCH
  else if E.dh_check_pubkey pub ≠ CRYPT_OK then some (E.dh_check_pubkey pub)
  else if (E.ltc_mp_exptmod pub.y priv.x priv.prime).1 ≠ CRYPT_OK then
    some (E.ltc_mp_exptmod pub.y priv.x priv.prime).1
  else if len < E.ltc_mp_unsigned_bin_size (E.ltc_mp_exptmod pub.y priv.x priv.prime).2 then
    some CRYPT_BUFFER_OVERFLOW
  else none

/-- The error of the first failing step in the sequence role check, group check,
initialisation of the temporary, public-key validation, exponentiation,
buffer-size check; `none` when every step of that sequence passes. -/
def first_failing_step (E : Engine) (priv pub : dh_key) (len : Nat) : Option Int :=
  if priv.type ≠ PK_PRIVATE then some CRYPT_PK_NOT_PRIVATE
  else if E.ltc_mp_cmp priv.prime pub.prime ≠ LTC_MP_EQ
      ∨ E.ltc_mp_cmp priv.base pub.base ≠ LTC_MP_EQ then some CRYPT_PK_TYPE_MISMATCH
  else if E.ltc_mp_init ≠ CRYPT_OK then some E.ltc_mp_init
  else if E.dh_check_pubkey pub ≠ CRYPT_OK then some (E.dh_check_pubkey pub)
  else if (E.ltc_mp_exptmod pub.y priv.x priv.prime).1 ≠ CRYPT_OK then
    some (E.ltc_mp_exptmod pub.y priv.x priv.prime).1
  else if len < E.ltc_mp_unsigned_bin_size (E.ltc_mp_exptmod pub.y priv.x priv.prime).2 then
    some CRYPT_BUFFER_OVERFLOW
  else none

/-- The call reaches the buffer-size check and the capacity `len` is smaller
than the measured length. -/
def buffer_too_small (E : Engine) (priv pub : dh_key) (len : Nat) : Prop :=
  priv.type = PK_PRIVATE ∧
  E.ltc_mp_cmp priv.prime pub.prime = LTC_MP_EQ ∧
  E.ltc_mp_cmp priv.base pub.base = LTC_MP_EQ ∧
  E.ltc_mp_init = CRYPT_OK ∧
  E.dh_check_pubkey pub = CRYPT_OK ∧
  (E.ltc_mp_exptmod pub.y priv.x priv.prime).1 = CRYPT_OK ∧
  len < E.ltc_mp_unsigned_bin_size (E.ltc_mp_exptmod pub.y priv.x priv.prime).2

/-! ## Helper lemmas -/

/-! The encoder of the reference engine is the base-256 positional encoding:
it decodes back to the value, every byte is below 256, there is no leading zero
byte, and its length is monotone in the value. -/

theorem le_bytes_fuel_eq_digits (fuel : Nat) :
    ∀ v, v ≤ fuel → le_bytes_fuel fuel v = Nat.digits 256 v := by
  induction fuel with
  | zero =>
    intro v hv
    have hz : v = 0 := Nat.le_zero.mp hv
    subst hz
    simp [le_bytes_fuel]
  | succ n ih =>
    intro v hv
    by_cases h0 : v = 0
    · subst h0
      simp [le_bytes_fuel]
    · have hpos : 0 < v := Nat.pos_of_ne_zero h0
      have hdiv : v / 256 ≤ n := by omega
      rw [Nat.digits_def' (by norm_num) hpos]
      simp [le_bytes_fuel, h0, ih _ hdiv]

theorem be_bytes_eq_digits (v : Nat) : be_bytes v = (Nat.digits 256 v).reverse := by
  rw [be_bytes, le_bytes_fuel_eq_digits v v (Nat.le_refl v)]

theorem be_value_reverse (l : List Nat) : be_value l.reverse = Nat.ofDigits 256 l := by
  induction l with
  | nil => rfl
  | cons a l ih =>
    have hstep : be_value (l.reverse ++ [a]) = be_value l.reverse * 256 + a := by
      simp [be_value, List.foldl_append]
    rw [List.reverse_cons, hstep, ih, Nat.ofDigits_cons]
    ring

theorem be_value_be_bytes (v : Nat) : be_value (be_bytes v) = v := by
  rw [be_bytes_eq_digits, be_value_reverse, Nat.ofDigits_digits]

theorem be_bytes_lt (v b : Nat) (hb : b ∈ be_bytes v) : b < 256 := by
  rw [be_bytes_eq_digits, List.mem_reverse] at hb
  exact Nat.digits_lt_base (by norm_num) hb

theorem be_bytes_head_ne_zero (v : Nat) : (be_bytes v).head? ≠ some 0 := by
  rw [be_bytes_eq_digits, List.head?_reverse]
  intro h
  have hne : Nat.digits 256 v ≠ [] := by
    intro hnil
    simp [hnil] at h
  have hlast := Nat.getLast_digit_ne_zero 256 (Nat.digits_ne_nil_iff_ne_zero.mp hne)
  rw [List.getLast?_eq_getLast _ hne] at h
  exact hlast (Option.some.inj h)

theorem unsigned_bin_size_mono {a b : Nat} (h : a ≤ b) :
    unsigned_bin_size a ≤ unsigned_bin_size b := by
  simp only [unsigned_bin_size, be_bytes_eq_digits, List.length_reverse]
  exact Nat.le_digits_len_le 256 a b h

theorem ltc_mp_faithful : ltc_mp.Faithful where
  cmp_eq a b := by
    simp only [ltc_mp, LTC_MP_LT, LTC_MP_EQ, LTC_MP_GT]
    by_cases h1 : a < b
    · simp [h1]; omega
    · by_cases h2 : a = b <;> simp [h1, h2]
  exptmod_ok a b c _ := rfl
  size_eq v := rfl
  write_ok v buf _ := rfl

theorem ltc_mp_validates : ltc_mp.Validates := by
  intro key h
  by_contra hn
  simp [ltc_mp, dh_check_pubkey, hn, CRYPT_OK, CRYPT_INVALID_ARG] at h

theorem take_size_encoding (v : Nat) (buf : List Nat) :
    (be_bytes v ++ buf.drop (unsigned_bin_size v)).take (unsigned_bin_size v) = be_bytes v := by
  simp [unsigned_bin_size]

/-- The run of a call that passes every check and whose engine calls succeed. -/
theorem run_success (E : Engine) (priv pub : dh_key) (out : List Nat) (outlen : Nat)
    (htype : priv.type = PK_PRIVATE)
    (hprime : E.ltc_mp_cmp priv.prime pub.prime = LTC_MP_EQ)
    (hbase : E.ltc_mp_cmp priv.base pub.base = LTC_MP_EQ)
    (hinit : E.ltc_mp_init = CRYPT_OK)
    (hchk : E.dh_check_pubkey pub = CRYPT_OK)
    (hexp : (E.ltc_mp_exptmod pub.y priv.x priv.prime).1 = CRYPT_OK)
    (hlen : E.ltc_mp_unsigned_bin_size (E.ltc_mp_exptmod pub.y priv.x priv.prime).2 ≤ outlen)
    (hbin : (E.ltc_mp_to_unsigned_bin (E.ltc_mp_exptmod pub.y priv.x priv.prime).2 out).1
      = CRYPT_OK) :
    dh_shared_secret E (some priv) (some pub) (some out) (some outlen) =
      error_exit CRYPT_OK (E.ltc_mp_to_unsigned_bin (E.ltc_mp_exptmod pub.y priv.x priv.prime).2 out).2
        (E.ltc_mp_unsigned_bin_size (E.ltc_mp_exptmod pub.y priv.x priv.prime).2)
        [Call.mp_cmp, Call.mp_cmp, Call.mp_init, Call.check_pubkey, Call.mp_exptmod,
          Call.mp_unsigned_bin_size, Call.mp_to_unsigned_bin] := by
  simp [dh_shared_secret, htype, hprime, hbase, hinit, hchk, hexp, hbin, Nat.not_lt.mpr hlen]

/-! ## The claims -/

/-- C1: success postcondition. For non-null arguments, a private key of type
`PK_PRIVATE`, keys with equal prime and equal base, a public key the validator
accepts, engine calls that succeed, and an incoming `*outlen` of at least `n`,
the minimal byte length of `s = y ^ x mod prime`: the call returns `CRYPT_OK`,
sets `*outlen` to exactly `n`, and the first `n` bytes of `out` are the minimal
unsigned big-endian encoding of `s`. -/
theorem dh_shared_secret_success (E : Engine) (hE : E.Faithful) (priv pub : dh_key)
    (out : List Nat) (outlen : Nat)
    (htype : priv.type = PK_PRIVATE)
    (hprime : priv.prime = pub.prime) (hbase : priv.base = pub.base)
    (hchk : E.dh_check_pubkey pub = CRYPT_OK)
    (hinit : E.ltc_mp_init = CRYPT_OK)
    (hexp : (E.ltc_mp_exptmod pub.y priv.x priv.prime).1 = CRYPT_OK)
    (hbin : (E.ltc_mp_to_unsigned_bin (pub.y ^ priv.x % priv.prime) out).1 = CRYPT_OK)
    (hlen : unsigned_bin_size (pub.y ^ priv.x % priv.prime) ≤ outlen) :
    (dh_shared_secret E (some priv) (some pub) (some out) (some outlen)).err = CRYPT_OK ∧
    (dh_shared_secret E (some priv) (some pub) (some out) (some outlen)).outlen
      = some (unsigned_bin_size (pub.y ^ priv.x % priv.prime)) ∧
    (dh_shared_secret E (some priv) (some pub) (some out) (some outlen)).out.map
        (List.take (unsigned_bin_size (pub.y ^ priv.x % priv.prime)))
      = some (be_bytes (pub.y ^ priv.x % priv.prime)) := by
  have hv := hE.exptmod_ok pub.y priv.x priv.prime hexp
  have hrun := run_success E priv pub out outlen htype ((hE.cmp_eq _ _).mpr hprime)
    ((hE.cmp_eq _ _).mpr hbase) hinit hchk hexp (by rw [hv, hE.size_eq]; exact hlen)
    (by rw [hv]; exact hbin)
  rw [hrun, hv, hE.size_eq, hE.write_ok _ _ hbin]
  simp [error_exit, take_size_encoding]

theorem dh_shared_secret_success_witness :
    ltc_mp.Faithful ∧
    (dh_shared_secret ltc_mp (some ⟨PK_PRIVATE, 6, 8, 5, 23⟩) (some ⟨PK_PUBLIC, 0, 19, 5, 23⟩)
      (some [9, 9, 9]) (some 3)).err = CRYPT_OK ∧
    (dh_shared_secret ltc_mp (some ⟨PK_PRIVATE, 6, 8, 5, 23⟩) (some ⟨PK_PUBLIC, 0, 19, 5, 23⟩)
      (some [9, 9, 9]) (some 3)).outlen = some (unsigned_bin_size (19 ^ 6 % 23)) ∧
    (dh_shared_secret ltc_mp (some ⟨PK_PRIVATE, 6, 8, 5, 23⟩) (some ⟨PK_PUBLIC, 0, 19, 5, 23⟩)
      (some [9, 9, 9]) (some 3)).out.map (List.take (unsigned_bin_size (19 ^ 6 % 23)))
      = some (be_bytes (19 ^ 6 % 23)) :=
  ⟨ltc_mp_faithful,
    dh_shared_secret_success ltc_mp ltc_mp_faithful ⟨PK_PRIVATE, 6, 8, 5, 23⟩
      ⟨PK_PUBLIC, 0, 19, 5, 23⟩ [9, 9, 9] 3 rfl rfl rfl (by decide) rfl rfl rfl (by decide)⟩

/-- DH symmetry for every engine that meets the big-integer contract and whose
calls succeed: both calls return `CRYPT_OK`, report the same length and produce
the encoding of `g ^ (a * b) mod p`. -/
theorem symmetry_of_faithful (E : Engine) (hE : E.Faithful) (p g a b : Nat)
    (outA outB : List Nat) (capA capB : Nat)
    (hvA : E.dh_check_pubkey ⟨PK_PUBLIC, 0, g ^ a % p, g, p⟩ = CRYPT_OK)
    (hvB : E.dh_check_pubkey ⟨PK_PUBLIC, 0, g ^ b % p, g, p⟩ = CRYPT_OK)
    (hinit : E.ltc_mp_init = CRYPT_OK)
    (hexpA : (E.ltc_mp_exptmod (g ^ b % p) a p).1 = CRYPT_OK)
    (hexpB : (E.ltc_mp_exptmod (g ^ a % p) b p).1 = CRYPT_OK)
    (hbinA : (E.ltc_mp_to_unsigned_bin (g ^ (a * b) % p) outA).1 = CRYPT_OK)
    (hbinB : (E.ltc_mp_to_unsigned_bin (g ^ (a * b) % p) outB).1 = CRYPT_OK)
    (hcapA : unsigned_bin_size (g ^ (a * b) % p) ≤ capA)
    (hcapB : unsigned_bin_size (g ^ (a * b) % p) ≤ capB) :
    (dh_shared_secret E (some ⟨PK_PRIVATE, a, g ^ a % p, g, p⟩)
      (some ⟨PK_PUBLIC, 0, g ^ b % p, g, p⟩) (some outA) (some capA)).err = CRYPT_OK ∧
    (dh_shared_secret E (some ⟨PK_PRIVATE, b, g ^ b % p, g, p⟩)
      (some ⟨PK_PUBLIC, 0, g ^ a % p, g, p⟩) (some outB) (some capB)).err = CRYPT_OK ∧
    (dh_shared_secret E (some ⟨PK_PRIVATE, a, g ^ a % p, g, p⟩)
      (some ⟨PK_PUBLIC, 0, g ^ b % p, g, p⟩) (some outA) (some capA)).outlen
      = some (unsigned_bin_size (g ^ (a * b) % p)) ∧
    (dh_shared_secret E (some ⟨PK_PRIVATE, b, g ^ b % p, g, p⟩)
      (some ⟨PK_PUBLIC, 0, g ^ a % p, g, p⟩) (some outB) (some capB)).outlen
      = some (unsigned_bin_size (g ^ (a * b) % p)) ∧
    (dh_shared_secret E (some ⟨PK_PRIVATE, a, g ^ a % p, g, p⟩)
      (some ⟨PK_PUBLIC, 0, g ^ b % p, g, p⟩) (some outA) (some capA)).out.map
        (List.take (unsigned_bin_size (g ^ (a * b) % p)))
      = some (be_bytes (g ^ (a * b) % p)) ∧
    (dh_shared_secret E (some ⟨PK_PRIVATE, b, g ^ b % p, g, p⟩)
      (some ⟨PK_PUBLIC, 0, g ^ a % p, g, p⟩) (some outB) (some capB)).out.map
        (List.take (unsigned_bin_size (g ^ (a * b) % p)))
      = some (be_bytes (g ^ (a * b) % p)) := by
  have hA : (g ^ b % p) ^ a % p = g ^ (a * b) % p := by
    rw [← Nat.pow_mod, ← pow_mul, Nat.mul_comm]
  have hB : (g ^ a % p) ^ b % p = g ^ (a * b) % p := by
    rw [← Nat.pow_mod, ← pow_mul]
  have hvalA := hE.exptmod_ok _ _ _ hexpA
  have hvalB := hE.exptmod_ok _ _ _ hexpB
  rw [hA] at hvalA
  rw [hB] at hvalB
  have hrunA := run_success E ⟨PK_PRIVATE, a, g ^ a % p, g, p⟩ ⟨PK_PUBLIC, 0, g ^ b % p, g, p⟩
    outA capA rfl ((hE.cmp_eq _ _).mpr rfl) ((hE.cmp_eq _ _).mpr rfl) hinit hvB hexpA
    (by simp only [hvalA, hE.size_eq]; exact hcapA) (by simp only [hvalA]; exact hbinA)
  have hrunB := run_success E ⟨PK_PRIVATE, b, g ^ b % p, g, p⟩ ⟨PK_PUBLIC, 0, g ^ a % p, g, p⟩
    outB capB rfl ((hE.cmp_eq _ _).mpr rfl) ((hE.cmp_eq _ _).mpr rfl) hinit hvA hexpB
    (by simp only [hvalB, hE.size_eq]; exact hcapB) (by simp only [hvalB]; exact hbinB)
  simp only [hvalA] at hrunA
  simp only [hvalB] at hrunB
  rw [hrunA, hrunB, hE.size_eq, hE.write_ok _ _ hbinA, hE.write_ok _ _ hbinB]
  simp [error_exit, take_size_encoding]

/-- C2: DH symmetry. For every group (prime `p`, generator `g`) and every pair
of private exponents `a` and `b` with public values `A = g ^ a mod p` and
`B = g ^ b mod p` that both pass public-key validation, and for output
capacities large enough in both calls, the call with private key `a` and public
key `B` and the call with private key `b` and public key `A` both return
`CRYPT_OK` and produce the same output length and the same output bytes. -/
theorem dh_symmetry (p g a b : Nat) (outA outB : List Nat) (capA capB : Nat)
    (hvA : dh_check_pubkey ⟨PK_PUBLIC, 0, g ^ a % p, g, p⟩ = CRYPT_OK)
    (hvB : dh_check_pubkey ⟨PK_PUBLIC, 0, g ^ b % p, g, p⟩ = CRYPT_OK)
    (hcapA : unsigned_bin_size ((g ^ b % p) ^ a % p) ≤ capA)
    (hcapB : unsigned_bin_size ((g ^ a % p) ^ b % p) ≤ capB) :
    (dh_shared_secret ltc_mp (some ⟨PK_PRIVATE, a, g ^ a % p, g, p⟩)
      (some ⟨PK_PUBLIC, 0, g ^ b % p, g, p⟩) (some outA) (some capA)).err = CRYPT_OK ∧
    (dh_shared_secret ltc_mp (some ⟨PK_PRIVATE, b, g ^ b % p, g, p⟩)
      (some ⟨PK_PUBLIC, 0, g ^ a % p, g, p⟩) (some outB) (some capB)).err = CRYPT_OK ∧
    (dh_shared_secret ltc_mp (some ⟨PK_PRIVATE, a, g ^ a % p, g, p⟩)
      (some ⟨PK_PUBLIC, 0, g ^ b % p, g, p⟩) (some outA) (some capA)).outlen
      = (dh_shared_secret ltc_mp (some ⟨PK_PRIVATE, b, g ^ b % p, g, p⟩)
          (some ⟨PK_PUBLIC, 0, g ^ a % p, g, p⟩) (some outB) (some capB)).outlen ∧
    (dh_shared_secret ltc_mp (some ⟨PK_PRIVATE, a, g ^ a % p, g, p⟩)
      (some ⟨PK_PUBLIC, 0, g ^ b % p, g, p⟩) (some outA) (some capA)).outlen
      = some (unsigned_bin_size (g ^ (a * b) % p)) ∧
    (dh_shared_secret ltc_mp (some ⟨PK_PRIVATE, a, g ^ a % p, g, p⟩)
      (some ⟨PK_PUBLIC, 0, g ^ b % p, g, p⟩) (some outA) (some capA)).out.map
        (List.take (unsigned_bin_size (g ^ (a * b) % p)))
      = (dh_shared_secret ltc_mp (some ⟨PK_PRIVATE, b, g ^ b % p, g, p⟩)
          (some ⟨PK_PUBLIC, 0, g ^ a % p, g, p⟩) (some outB) (some capB)).out.map
        (List.take (unsigned_bin_size (g ^ (a * b) % p))) ∧
    (dh_shared_secret ltc_mp (some ⟨PK_PRIVATE, a, g ^ a % p, g, p⟩)
      (some ⟨PK_PUBLIC, 0, g ^ b % p, g, p⟩) (some outA) (some capA)).out.map
        (List.take (unsigned_bin_size (g ^ (a * b) % p)))
      = some (be_bytes (g ^ (a * b) % p)) := by
  have hA : (g ^ b % p) ^ a % p = g ^ (a * b) % p := by
    rw [← Nat.pow_mod, ← pow_mul, Nat.mul_comm]
  have hB : (g ^ a % p) ^ b % p = g ^ (a * b) % p := by
    rw [← Nat.pow_mod, ← pow_mul]
  rw [hA] at hcapA
  rw [hB] at hcapB
  obtain ⟨h1, h2, h3, h4, h5, h6⟩ := symmetry_of_faithful ltc_mp ltc_mp_faithful p g a b
    outA outB capA capB hvA hvB rfl rfl rfl rfl rfl hcapA hcapB
  exact ⟨h1, h2, h3.trans h4.symm, h3, h5.trans h6.symm, h5⟩

theorem dh_symmetry_witness :
    dh_check_pubkey ⟨PK_PUBLIC, 0, 5 ^ 6 % 23, 5, 23⟩ = CRYPT_OK ∧
    dh_check_pubkey ⟨PK_PUBLIC, 0, 5 ^ 15 % 23, 5, 23⟩ = CRYPT_OK ∧
    unsigned_bin_size ((5 ^ 15 % 23) ^ 6 % 23) ≤ 2 ∧
    unsigned_bin_size ((5 ^ 6 % 23) ^ 15 % 23) ≤ 1 ∧
    (dh_shared_secret ltc_mp (some ⟨PK_PRIVATE, 6, 5 ^ 6 % 23, 5, 23⟩)
      (some ⟨PK_PUBLIC, 0, 5 ^ 15 % 23, 5, 23⟩) (some [7, 7]) (some 2)).err = CRYPT_OK ∧
    (dh_shared_secret ltc_mp (some ⟨PK_PRIVATE, 15, 5 ^ 15 % 23, 5, 23⟩)
      (some ⟨PK_PUBLIC, 0, 5 ^ 6 % 23, 5, 23⟩) (some [9]) (some 1)).err = CRYPT_OK ∧
    (dh_shared_secret ltc_mp (some ⟨PK_PRIVATE, 6, 5 ^ 6 % 23, 5, 23⟩)
      (some ⟨PK_PUBLIC, 0, 5 ^ 15 % 23, 5, 23⟩) (some [7, 7]) (some 2)).outlen
      = (dh_shared_secret ltc_mp (some ⟨PK_PRIVATE, 15, 5 ^ 15 % 23, 5, 23⟩)
          (some ⟨PK_PUBLIC, 0, 5 ^ 6 % 23, 5, 23⟩) (some [9]) (some 1)).outlen ∧
    (dh_shared_secret ltc_mp (some ⟨PK_PRIVATE, 6, 5 ^ 6 % 23, 5, 23⟩)
      (some ⟨PK_PUBLIC, 0, 5 ^ 15 % 23, 5, 23⟩) (some [7, 7]) (some 2)).out.map (List.take 1)
      = (dh_shared_secret ltc_mp (some ⟨PK_PRIVATE, 15, 5 ^ 15 % 23, 5, 23⟩)
          (some ⟨PK_PUBLIC, 0, 5 ^ 6 % 23, 5, 23⟩) (some [9]) (some 1)).out.map (List.take 1) :=
  have h := dh_symmetry 23 5 6 15 [7, 7] [9] 2 1 (by decide) (by decide) (by decide) (by decide)
  ⟨by decide, by decide, by decide, by decide, h.1, h.2.1, h.2.2.1, h.2.2.2.2.1⟩

/-- C3: buffer-too-small probing and retry. For an otherwise valid input
(private role, same group, valid public key, arithmetic succeeds) whose incoming
`*outlen` is smaller than the minimal encoding length `n` of the shared secret,
the call returns `CRYPT_BUFFER_OVERFLOW`, sets `*outlen` to exactly `n` and
leaves `out` unmodified; a second call with the same keys and a capacity of
exactly `n` returns `CRYPT_OK` with `*outlen = n` and `out` holding the `n`-byte
encoding of the shared secret, the same bytes any larger-capacity call
produces. -/
theorem dh_shared_secret_probe_and_retry (E : Engine) (hE : E.Faithful) (priv pub : dh_key)
    (out : List Nat) (outlen : Nat)
    (htype : priv.type = PK_PRIVATE)
    (hprime : priv.prime = pub.prime) (hbase : priv.base = pub.base)
    (hchk : E.dh_check_pubkey pub = CRYPT_OK)
    (hinit : E.ltc_mp_init = CRYPT_OK)
    (hexp : (E.ltc_mp_exptmod pub.y priv.x priv.prime).1 = CRYPT_OK)
    (hsmall : outlen < unsigned_bin_size (pub.y ^ priv.x % priv.prime)) :
    (dh_shared_secret E (some priv) (some pub) (some out) (some outlen)).err
      = CRYPT_BUFFER_OVERFLOW ∧
    (dh_shared_secret E (some priv) (some pub) (some out) (some outlen)).outlen
      = some (unsigned_bin_size (pub.y ^ priv.x % priv.prime)) ∧
    (dh_shared_secret E (some priv) (some pub) (some out) (some outlen)).out = some out ∧
    ∀ out2 : List Nat,
      (E.ltc_mp_to_unsigned_bin (pub.y ^ priv.x % priv.prime) out2).1 = CRYPT_OK →
      (dh_shared_secret E (some priv) (some pub) (some out2)
        (some (unsigned_bin_size (pub.y ^ priv.x % priv.prime)))).err = CRYPT_OK ∧
      (dh_shared_secret E (some priv) (some pub) (some out2)
        (some (unsigned_bin_size (pub.y ^ priv.x % priv.prime)))).outlen
        = some (unsigned_bin_size (pub.y ^ priv.x % priv.prime)) ∧
      (dh_shared_secret E (some priv) (some pub) (some out2)
        (some (unsigned_bin_size (pub.y ^ priv.x % priv.prime)))).out.map
          (List.take (unsigned_bin_size (pub.y ^ priv.x % priv.prime)))
        = some (be_bytes (pub.y ^ priv.x % priv.prime)) ∧
      ∀ (out3 : List Nat) (cap3 : Nat),
        unsigned_bin_size (pub.y ^ priv.x % priv.prime) ≤ cap3 →
        (E.ltc_mp_to_unsigned_bin (pub.y ^ priv.x % priv.prime) out3).1 = CRYPT_OK →
        (dh_shared_secret E (some priv) (some pub) (some out3) (some cap3)).out.map
            (List.take (unsigned_bin_size (pub.y ^ priv.x % priv.prime)))
          = (dh_shared_secret E (some priv) (some pub) (some out2)
              (some (unsigned_bin_size (pub.y ^ priv.x % priv.prime)))).out.map
            (List.take (unsigned_bin_size (pub.y ^ priv.x % priv.prime))) := by
  have hv := hE.exptmod_ok pub.y priv.x priv.prime hexp
  have hp := (hE.cmp_eq _ _).mpr hprime
  have hb := (hE.cmp_eq _ _).mpr hbase
  have hok : ∀ (buf : List Nat) (cap : Nat),
      unsigned_bin_size (pub.y ^ priv.x % priv.prime) ≤ cap →
      (E.ltc_mp_to_unsigned_bin (pub.y ^ priv.x % priv.prime) buf).1 = CRYPT_OK →
      dh_shared_secret E (some priv) (some pub) (some buf) (some cap) =
        error_exit CRYPT_OK
          (be_bytes (pub.y ^ priv.x % priv.prime)
            ++ buf.drop (unsigned_bin_size (pub.y ^ priv.x % priv.prime)))
          (unsigned_bin_size (pub.y ^ priv.x % priv.prime))
          [Call.mp_cmp, Call.mp_cmp, Call.mp_init, Call.check_pubkey, Call.mp_exptmod,
            Call.mp_unsigned_bin_size, Call.mp_to_unsigned_bin] := by
    intro buf cap hcap hbin
    have hrun := run_success E priv pub buf cap htype hp hb hinit hchk hexp
      (by rw [hv, hE.size_eq]; exact hcap) (by rw [hv]; exact hbin)
    rw [hrun, hv, hE.size_eq, hE.write_ok _ _ hbin]
  refine ⟨?_, ?_, ?_, ?_⟩
  · simp [dh_shared_secret, error_exit, htype, hp, hb, hinit, hchk, hexp, hv, hE.size_eq, hsmall]
  · simp [dh_shared_secret, error_exit, htype, hp, hb, hinit, hchk, hexp, hv, hE.size_eq, hsmall]
  · simp [dh_shared_secret, error_exit, htype, hp, hb, hinit, hchk, hexp, hv, hE.size_eq, hsmall]
  · intro out2 hbin2
    rw [hok out2 _ (Nat.le_refl _) hbin2]
    refine ⟨rfl, rfl, by simp [error_exit, take_size_encoding], ?_⟩
    intro out3 cap3 hcap3 hbin3
    rw [hok out3 cap3 hcap3 hbin3]
    simp [error_exit, take_size_encoding]

theorem dh_shared_secret_probe_and_retry_witness :
    ltc_mp.Faithful ∧
    (dh_shared_secret ltc_mp (some ⟨PK_PRIVATE, 6, 8, 5, 23⟩) (some ⟨PK_PUBLIC, 0, 19, 5, 23⟩)
      (some []) (some 0)).err = CRYPT_BUFFER_OVERFLOW ∧
    (dh_shared_secret ltc_mp (some ⟨PK_PRIVATE, 6, 8, 5, 23⟩) (some ⟨PK_PUBLIC, 0, 19, 5, 23⟩)
      (some []) (some 0)).outlen = some 1 ∧
    (dh_shared_secret ltc_mp (some ⟨PK_PRIVATE, 6, 8, 5, 23⟩) (some ⟨PK_PUBLIC, 0, 19, 5, 23⟩)
      (some [0]) (some 1)).err = CRYPT_OK ∧
    (dh_shared_secret ltc_mp (some ⟨PK_PRIVATE, 6, 8, 5, 23⟩) (some ⟨PK_PUBLIC, 0, 19, 5, 23⟩)
      (some [0]) (some 1)).out.map (List.take 1) = some [2] :=
  have h := dh_shared_secret_probe_and_retry ltc_mp ltc_mp_faithful ⟨PK_PRIVATE, 6, 8, 5, 23⟩
    ⟨PK_PUBLIC, 0, 19, 5, 23⟩ [] 0 rfl rfl rfl (by decide) rfl rfl (by decide)
  ⟨ltc_mp_faithful, h.1, h.2.1, (h.2.2.2 [0] rfl).1, (h.2.2.2 [0] rfl).2.2.1⟩

/-- C4 as stated fails: when the key passed as private key is not of type
`PK_PRIVATE`, a call with different primes returns `CRYPT_PK_NOT_PRIVATE`, not
`CRYPT_PK_TYPE_MISMATCH`: the role check comes first. -/
theorem group_mismatch_after_role_check :
    (⟨PK_PUBLIC, 0, 8, 5, 23⟩ : dh_key).prime ≠ (⟨PK_PUBLIC, 0, 19, 5, 47⟩ : dh_key).prime ∧
    (dh_shared_secret ltc_mp (some ⟨PK_PUBLIC, 0, 8, 5, 23⟩) (some ⟨PK_PUBLIC, 0, 19, 5, 47⟩)
      (some [0, 0]) (some 2)).err = CRYPT_PK_NOT_PRIVATE ∧
    CRYPT_PK_NOT_PRIVATE ≠ CRYPT_PK_TYPE_MISMATCH := by
  decide

/-- C4, amended: group mismatch. For non-null arguments and a private key of
type `PK_PRIVATE`, if the primes differ or the bases differ (by big-integer
value comparison) the call fails with `CRYPT_PK_TYPE_MISMATCH`, and neither the
output buffer nor `*outlen` is modified. -/
theorem dh_shared_secret_group_mismatch (E : Engine) (hE : E.Faithful) (priv pub : dh_key)
    (out : List Nat) (outlen : Nat)
    (htype : priv.type = PK_PRIVATE)
    (hgroup : priv.prime ≠ pub.prime ∨ priv.base ≠ pub.base) :
    (dh_shared_secret E (some priv) (some pub) (some out) (some outlen)).err
      = CRYPT_PK_TYPE_MISMATCH ∧
    (dh_shared_secret E (some priv) (some pub) (some out) (some outlen)).out = some out ∧
    (dh_shared_secret E (some priv) (some pub) (some out) (some outlen)).outlen
      = some outlen := by
  have hp := hE.cmp_eq priv.prime pub.prime
  have hb := hE.cmp_eq priv.base pub.base
  by_cases h1 : priv.prime = pub.prime
  · have h2 : priv.base ≠ pub.base := by
      rcases hgroup with h | h
      · exact absurd h1 h
      · exact h
    simp [dh_shared_secret, htype, hp.mpr h1, mt hb.mp h2]
  · simp [dh_shared_secret, htype, mt hp.mp h1]

theorem dh_shared_secret_group_mismatch_witness :
    ltc_mp.Faithful ∧
    (dh_shared_secret ltc_mp (some ⟨PK_PRIVATE, 6, 8, 5, 23⟩) (some ⟨PK_PUBLIC, 0, 19, 7, 23⟩)
      (some [1, 2]) (some 2)).err = CRYPT_PK_TYPE_MISMATCH ∧
    (dh_shared_secret ltc_mp (some ⟨PK_PRIVATE, 6, 8, 5, 23⟩) (some ⟨PK_PUBLIC, 0, 19, 7, 23⟩)
      (some [1, 2]) (some 2)).out = some [1, 2] ∧
    (dh_shared_secret ltc_mp (some ⟨PK_PRIVATE, 6, 8, 5, 23⟩) (some ⟨PK_PUBLIC, 0, 19, 7, 23⟩)
      (some [1, 2]) (some 2)).outlen = some 2 :=
  ⟨ltc_mp_faithful,
    dh_shared_secret_group_mismatch ltc_mp ltc_mp_faithful ⟨PK_PRIVATE, 6, 8, 5, 23⟩
      ⟨PK_PUBLIC, 0, 19, 7, 23⟩ [1, 2] 2 rfl (Or.inr (by decide))⟩

/-- C5: not a private key. For non-null arguments, whenever the key passed as
private key has a type other than `PK_PRIVATE`, the call returns
`CRYPT_PK_NOT_PRIVATE`, whatever the public key, the groups, the buffer, the
capacity and the collaborators are, and neither `out` nor `*outlen` is
modified; no collaborator is called. -/
theorem dh_shared_secret_not_private (E : Engine) (priv pub : dh_key)
    (out : List Nat) (outlen : Nat) (htype : priv.type ≠ PK_PRIVATE) :
    dh_shared_secret E (some priv) (some pub) (some out) (some outlen)
      = ⟨CRYPT_PK_NOT_PRIVATE, some out, some outlen, []⟩ := by
  simp [dh_shared_secret, htype]

theorem dh_shared_secret_not_private_witness :
    (⟨PK_PUBLIC, 0, 8, 5, 23⟩ : dh_key).type ≠ PK_PRIVATE ∧
    dh_shared_secret ltc_mp (some ⟨PK_PUBLIC, 0, 8, 5, 23⟩) (some ⟨PK_PUBLIC, 0, 19, 5, 23⟩)
      (some [3, 4]) (some 2) = ⟨CRYPT_PK_NOT_PRIVATE, some [3, 4], some 2, []⟩ :=
  ⟨by decide, dh_shared_secret_not_private ltc_mp ⟨PK_PUBLIC, 0, 8, 5, 23⟩
    ⟨PK_PUBLIC, 0, 19, 5, 23⟩ [3, 4] 2 (by decide)⟩


/-- C6 as stated fails: a key of type `PK_PRIVATE`, of the same group and with
a value the validator accepts, is accepted as the public key: the call returns
`CRYPT_OK` and writes the shared secret. -/
theorem private_key_accepted_as_public_key :
    (⟨PK_PRIVATE, 15, 19, 5, 23⟩ : dh_key).type = PK_PRIVATE ∧
    dh_check_pubkey ⟨PK_PRIVATE, 15, 19, 5, 23⟩ = CRYPT_OK ∧
    (dh_shared_secret ltc_mp (some ⟨PK_PRIVATE, 6, 8, 5, 23⟩) (some ⟨PK_PRIVATE, 15, 19, 5, 23⟩)
      (some [0]) (some 1)).err = CRYPT_OK ∧
    (dh_shared_secret ltc_mp (some ⟨PK_PRIVATE, 6, 8, 5, 23⟩) (some ⟨PK_PRIVATE, 15, 19, 5, 23⟩)
      (some [0]) (some 1)).out = some [2] := by
  decide

/-- C6, amended: the type of the public key is not examined. Whenever the
validator gives the same verdict for the key with another type, the whole
result of the call (return code, `out`, `*outlen`, collaborator calls) is the
same; a key of type `PK_PRIVATE` is accepted as public key exactly when the same
key with type `PK_PUBLIC` is. -/
theorem dh_shared_secret_ignores_public_type (E : Engine) (private_key : Option dh_key)
    (pub : dh_key) (t : Int) (out : Option (List Nat)) (outlen : Option Nat)
    (hchk : E.dh_check_pubkey { pub with type := t } = E.dh_check_pubkey pub) :
    dh_shared_secret E private_key (some { pub with type := t }) out outlen
      = dh_shared_secret E private_key (some pub) out outlen := by
  cases private_key <;> cases out <;> cases outlen <;> simp [dh_shared_secret, hchk]

theorem dh_shared_secret_ignores_public_type_witness :
    ltc_mp.dh_check_pubkey { (⟨PK_PUBLIC, 15, 19, 5, 23⟩ : dh_key) with type := PK_PRIVATE }
      = ltc_mp.dh_check_pubkey ⟨PK_PUBLIC, 15, 19, 5, 23⟩ ∧
    dh_shared_secret ltc_mp (some ⟨PK_PRIVATE, 6, 8, 5, 23⟩)
        (some { (⟨PK_PUBLIC, 15, 19, 5, 23⟩ : dh_key) with type := PK_PRIVATE }) (some [0]) (some 1)
      = dh_shared_secret ltc_mp (some ⟨PK_PRIVATE, 6, 8, 5, 23⟩)
        (some ⟨PK_PUBLIC, 15, 19, 5, 23⟩) (some [0]) (some 1) :=
  ⟨rfl, dh_shared_secret_ignores_public_type ltc_mp (some ⟨PK_PRIVATE, 6, 8, 5, 23⟩)
    ⟨PK_PUBLIC, 15, 19, 5, 23⟩ PK_PRIVATE (some [0]) (some 1) rfl⟩

/-- C7: the validator's error is propagated unchanged. For a call that passes
the role check and the group check and whose temporary is initialised, if
`dh_check_pubkey` returns a code `e` other than `CRYPT_OK`, the call returns
exactly `e`, and `out` and `*outlen` are unmodified. -/
theorem dh_shared_secret_validator_error (E : Engine) (priv pub : dh_key)
    (out : List Nat) (outlen : Nat) (e : Int)
    (htype : priv.type = PK_PRIVATE)
    (hprime : E.ltc_mp_cmp priv.prime pub.prime = LTC_MP_EQ)
    (hbase : E.ltc_mp_cmp priv.base pub.base = LTC_MP_EQ)
    (hinit : E.ltc_mp_init = CRYPT_OK)
    (hchk : E.dh_check_pubkey pub = e) (he : e ≠ CRYPT_OK) :
    (dh_shared_secret E (some priv) (some pub) (some out) (some outlen)).err = e ∧
    (dh_shared_secret E (some priv) (some pub) (some out) (some outlen)).out = some out ∧
    (dh_shared_secret E (some priv) (some pub) (some out) (some outlen)).outlen
      = some outlen := by
  subst hchk
  simp [dh_shared_secret, error_exit, htype, hprime, hbase, hinit, he]

theorem dh_shared_secret_validator_error_witness :
    CRYPT_INVALID_ARG ≠ CRYPT_OK ∧
    (dh_shared_secret ltc_mp (some ⟨PK_PRIVATE, 6, 8, 5, 23⟩) (some ⟨PK_PUBLIC, 0, 22, 5, 23⟩)
      (some [5, 6]) (some 2)).err = CRYPT_INVALID_ARG ∧
    (dh_shared_secret ltc_mp (some ⟨PK_PRIVATE, 6, 8, 5, 23⟩) (some ⟨PK_PUBLIC, 0, 22, 5, 23⟩)
      (some [5, 6]) (some 2)).out = some [5, 6] ∧
    (dh_shared_secret ltc_mp (some ⟨PK_PRIVATE, 6, 8, 5, 23⟩) (some ⟨PK_PUBLIC, 0, 22, 5, 23⟩)
      (some [5, 6]) (some 2)).outlen = some 2 :=
  ⟨by decide,
    dh_shared_secret_validator_error ltc_mp ⟨PK_PRIVATE, 6, 8, 5, 23⟩ ⟨PK_PUBLIC, 0, 22, 5, 23⟩
      [5, 6] 2 CRYPT_INVALID_ARG rfl rfl rfl rfl (by decide) (by decide)⟩

/-- A degenerate public value with any engine that meets the contracts: the
call fails and leaves `out` as it was; the code is the validator's when
`ltc_mp_init` succeeds and that of `ltc_mp_init` when it does not. -/
theorem degenerate_of_validates (E : Engine) (hE : E.Faithful) (hV : E.Validates)
    (priv pub : dh_key) (out : List Nat) (outlen : Nat)
    (htype : priv.type = PK_PRIVATE)
    (hprime : priv.prime = pub.prime) (hbase : priv.base = pub.base)
    (hy : pub.y = 0 ∨ pub.y = 1) :
    (dh_shared_secret E (some priv) (some pub) (some out) (some outlen)).err ≠ CRYPT_OK ∧
    (dh_shared_secret E (some priv) (some pub) (some out) (some outlen)).out = some out ∧
    (E.ltc_mp_init = CRYPT_OK →
      (dh_shared_secret E (some priv) (some pub) (some out) (some outlen)).err
        = E.dh_check_pubkey pub) ∧
    (E.ltc_mp_init ≠ CRYPT_OK →
      (dh_shared_secret E (some priv) (some pub) (some out) (some outlen)).err
        = E.ltc_mp_init) := by
  have hp := (hE.cmp_eq _ _).mpr hprime
  have hb := (hE.cmp_eq _ _).mpr hbase
  have hrej : E.dh_check_pubkey pub ≠ CRYPT_OK := by
    intro h
    have := (hV pub h).1
    omega
  by_cases hinit : E.ltc_mp_init = CRYPT_OK
  · simp [dh_shared_secret, error_exit, htype, hp, hb, hinit, hrej]
  · simp [dh_shared_secret, htype, hp, hb, hinit]


/-- C8: degenerate public values are rejected. For every group and every
private key of that group, a call whose public key has value `y = 0` or `y = 1`
fails: it returns a code other than `CRYPT_OK`, namely the public-key
validator's error, for every capacity, and leaves the output buffer (and
`*outlen`) unmodified; modular exponentiation is not reached. -/
theorem dh_shared_secret_rejects_degenerate (priv pub : dh_key) (out : List Nat) (outlen : Nat)
    (htype : priv.type = PK_PRIVATE)
    (hprime : priv.prime = pub.prime) (hbase : priv.base = pub.base)
    (hy : pub.y = 0 ∨ pub.y = 1) :
    (dh_shared_secret ltc_mp (some priv) (some pub) (some out) (some outlen)).err ≠ CRYPT_OK ∧
    (dh_shared_secret ltc_mp (some priv) (some pub) (some out) (some outlen)).err
      = dh_check_pubkey pub ∧
    (dh_shared_secret ltc_mp (some priv) (some pub) (some out) (some outlen)).out = some out ∧
    (dh_shared_secret ltc_mp (some priv) (some pub) (some out) (some outlen)).outlen
      = some outlen ∧
    Call.mp_exptmod ∉
      (dh_shared_secret ltc_mp (some priv) (some pub) (some out) (some outlen)).calls := by
  obtain ⟨h1, h2, h3, _⟩ := degenerate_of_validates ltc_mp ltc_mp_faithful ltc_mp_validates
    priv pub out outlen htype hprime hbase hy
  have hp := (ltc_mp_faithful.cmp_eq _ _).mpr hprime
  have hb := (ltc_mp_faithful.cmp_eq _ _).mpr hbase
  have hinit : ltc_mp.ltc_mp_init = CRYPT_OK := rfl
  have hrej : ltc_mp.dh_check_pubkey pub ≠ CRYPT_OK := by
    rw [← h3 rfl]
    exact h1
  refine ⟨h1, h3 rfl, h2, ?_, ?_⟩ <;>
    simp [dh_shared_secret, error_exit, htype, hp, hb, hinit, hrej]

theorem dh_shared_secret_rejects_degenerate_witness :
    (dh_shared_secret ltc_mp (some ⟨PK_PRIVATE, 6, 8, 5, 23⟩) (some ⟨PK_PUBLIC, 0, 1, 5, 23⟩)
      (some [4, 4]) (some 2)).err ≠ CRYPT_OK ∧
    (dh_shared_secret ltc_mp (some ⟨PK_PRIVATE, 6, 8, 5, 23⟩) (some ⟨PK_PUBLIC, 0, 1, 5, 23⟩)
      (some [4, 4]) (some 2)).err = dh_check_pubkey ⟨PK_PUBLIC, 0, 1, 5, 23⟩ ∧
    (dh_shared_secret ltc_mp (some ⟨PK_PRIVATE, 6, 8, 5, 23⟩) (some ⟨PK_PUBLIC, 0, 1, 5, 23⟩)
      (some [4, 4]) (some 2)).out = some [4, 4] ∧
    (dh_shared_secret ltc_mp (some ⟨PK_PRIVATE, 6, 8, 5, 23⟩) (some ⟨PK_PUBLIC, 0, 1, 5, 23⟩)
      (some [4, 4]) (some 2)).outlen = some 2 ∧
    Call.mp_exptmod ∉ (dh_shared_secret ltc_mp (some ⟨PK_PRIVATE, 6, 8, 5, 23⟩)
      (some ⟨PK_PUBLIC, 0, 1, 5, 23⟩) (some [4, 4]) (some 2)).calls :=
  dh_shared_secret_rejects_degenerate ⟨PK_PRIVATE, 6, 8, 5, 23⟩ ⟨PK_PUBLIC, 0, 1, 5, 23⟩
    [4, 4] 2 rfl rfl rfl (Or.inr rfl)

/-- C10: no exponentiation after a failed precondition. On every input on which
the role check, the group check or the public-key validation fails, the call
never invokes modular exponentiation, and its whole result (return code, `out`,
`*outlen`, collaborator calls) is the same for any other behaviour of
`ltc_mp_exptmod` and any other private exponent. -/
theorem dh_shared_secret_no_exptmod_after_failed_check (E : Engine)
    (exptmod2 : Nat → Nat → Nat → Int × Nat) (priv pub : dh_key) (x2 : Nat)
    (out : List Nat) (outlen : Nat)
    (hpre : priv.type ≠ PK_PRIVATE ∨ E.ltc_mp_cmp priv.prime pub.prime ≠ LTC_MP_EQ ∨
      E.ltc_mp_cmp priv.base pub.base ≠ LTC_MP_EQ ∨ E.dh_check_pubkey pub ≠ CRYPT_OK) :
    Call.mp_exptmod ∉ (dh_shared_secret E (some priv) (some pub) (some out) (some outlen)).calls ∧
    dh_shared_secret { E with ltc_mp_exptmod := exptmod2 } (some { priv with x := x2 })
        (some pub) (some out) (some outlen)
      = dh_shared_secret E (some priv) (some pub) (some out) (some outlen) := by
  by_cases h1 : priv.type = PK_PRIVATE
  swap
  · simp [dh_shared_secret, h1]
  by_cases h2 : E.ltc_mp_cmp priv.prime pub.prime = LTC_MP_EQ
  swap
  · simp [dh_shared_secret, h1, h2]
  by_cases h3 : E.ltc_mp_cmp priv.base pub.base = LTC_MP_EQ
  swap
  · simp [dh_shared_secret, h1, h2, h3]
  by_cases h4 : E.ltc_mp_init = CRYPT_OK
  swap
  · simp [dh_shared_secret, h1, h2, h3, h4]
  have h5 : E.dh_check_pubkey pub ≠ CRYPT_OK := by
    rcases hpre with h | h | h | h
    · exact absurd h1 h
    · exact absurd h2 h
    · exact absurd h3 h
    · exact h
  simp [dh_shared_secret, error_exit, h1, h2, h3, h4, h5]

theorem dh_shared_secret_no_exptmod_after_failed_check_witness :
    ltc_mp.dh_check_pubkey ⟨PK_PUBLIC, 0, 1, 5, 23⟩ ≠ CRYPT_OK ∧
    Call.mp_exptmod ∉ (dh_shared_secret ltc_mp (some ⟨PK_PRIVATE, 6, 8, 5, 23⟩)
      (some ⟨PK_PUBLIC, 0, 1, 5, 23⟩) (some [1]) (some 1)).calls ∧
    dh_shared_secret { ltc_mp with ltc_mp_exptmod := fun _ _ _ => (CRYPT_MEM, 0) }
        (some { (⟨PK_PRIVATE, 6, 8, 5, 23⟩ : dh_key) with x := 7 })
        (some ⟨PK_PUBLIC, 0, 1, 5, 23⟩) (some [1]) (some 1)
      = dh_shared_secret ltc_mp (some ⟨PK_PRIVATE, 6, 8, 5, 23⟩)
        (some ⟨PK_PUBLIC, 0, 1, 5, 23⟩) (some [1]) (some 1) :=
  ⟨by decide,
    dh_shared_secret_no_exptmod_after_failed_check ltc_mp (fun _ _ _ => (CRYPT_MEM, 0))
      ⟨PK_PRIVATE, 6, 8, 5, 23⟩ ⟨PK_PUBLIC, 0, 1, 5, 23⟩ 7 [1] 1
      (Or.inr (Or.inr (Or.inr (by decide))))⟩

/-- C11: concrete scenario. With prime 23 and generator 5, the call with private
exponent 6 and public value 19 and the call with private exponent 15 and public
value 8, each with a capacity of at least 1, both return `CRYPT_OK` and both
yield the shared secret 2: `*outlen = 1` and `out[0] = 2`, the rest of the
buffer being as it was. -/
theorem dh_shared_secret_scenario_23_5 (outA outB : List Nat) (capA capB : Nat)
    (hcapA : 1 ≤ capA) (hcapB : 1 ≤ capB) :
    dh_shared_secret ltc_mp (some ⟨PK_PRIVATE, 6, 8, 5, 23⟩) (some ⟨PK_PUBLIC, 0, 19, 5, 23⟩)
        (some outA) (some capA)
      = ⟨CRYPT_OK, some (2 :: outA.drop 1), some 1,
          [Call.mp_cmp, Call.mp_cmp, Call.mp_init, Call.check_pubkey, Call.mp_exptmod,
            Call.mp_unsigned_bin_size, Call.mp_to_unsigned_bin, Call.mp_clear]⟩ ∧
    dh_shared_secret ltc_mp (some ⟨PK_PRIVATE, 15, 19, 5, 23⟩) (some ⟨PK_PUBLIC, 0, 8, 5, 23⟩)
        (some outB) (some capB)
      = ⟨CRYPT_OK, some (2 :: outB.drop 1), some 1,
          [Call.mp_cmp, Call.mp_cmp, Call.mp_init, Call.check_pubkey, Call.mp_exptmod,
            Call.mp_unsigned_bin_size, Call.mp_to_unsigned_bin, Call.mp_clear]⟩ := by
  have hA := run_success ltc_mp ⟨PK_PRIVATE, 6, 8, 5, 23⟩ ⟨PK_PUBLIC, 0, 19, 5, 23⟩ outA capA
    rfl rfl rfl rfl (by decide) rfl hcapA rfl
  have hB := run_success ltc_mp ⟨PK_PRIVATE, 15, 19, 5, 23⟩ ⟨PK_PUBLIC, 0, 8, 5, 23⟩ outB capB
    rfl rfl rfl rfl (by decide) rfl hcapB rfl
  rw [hA, hB]
  exact ⟨rfl, rfl⟩

theorem dh_shared_secret_scenario_23_5_witness :
    1 ≤ 1 ∧ 1 ≤ 4 ∧
    dh_shared_secret ltc_mp (some ⟨PK_PRIVATE, 6, 8, 5, 23⟩) (some ⟨PK_PUBLIC, 0, 19, 5, 23⟩)
        (some [0]) (some 1)
      = ⟨CRYPT_OK, some [2], some 1,
          [Call.mp_cmp, Call.mp_cmp, Call.mp_init, Call.check_pubkey, Call.mp_exptmod,
            Call.mp_unsigned_bin_size, Call.mp_to_unsigned_bin, Call.mp_clear]⟩ ∧
    dh_shared_secret ltc_mp (some ⟨PK_PRIVATE, 15, 19, 5, 23⟩) (some ⟨PK_PUBLIC, 0, 8, 5, 23⟩)
        (some [7, 7, 7, 7]) (some 4)
      = ⟨CRYPT_OK, some [2, 7, 7, 7], some 1,
          [Call.mp_cmp, Call.mp_cmp, Call.mp_init, Call.check_pubkey, Call.mp_exptmod,
            Call.mp_unsigned_bin_size, Call.mp_to_unsigned_bin, Call.mp_clear]⟩ :=
  ⟨by decide, by decide,
    dh_shared_secret_scenario_23_5 [0] [7, 7, 7, 7] 1 4 (by decide) (by decide)⟩

/-- The encoded residue is no longer than the prime, for every engine that meets
the contracts: once the group check and the validator have passed and
`ltc_mp_exptmod` has succeeded, the measured length is at most the byte length
of the prime. -/
theorem size_le_prime_of_validates (E : Engine) (hE : E.Faithful) (hV : E.Validates)
    (priv pub : dh_key)
    (hprime : E.ltc_mp_cmp priv.prime pub.prime = LTC_MP_EQ)
    (hchk : E.dh_check_pubkey pub = CRYPT_OK)
    (hexp : (E.ltc_mp_exptmod pub.y priv.x priv.prime).1 = CRYPT_OK) :
    E.ltc_mp_unsigned_bin_size (E.ltc_mp_exptmod pub.y priv.x priv.prime).2
      ≤ unsigned_bin_size priv.prime := by
  have hp : priv.prime = pub.prime := (hE.cmp_eq _ _).mp hprime
  have hpos : 0 < priv.prime := by
    have := (hV pub hchk).2
    omega
  rw [hE.size_eq, hE.exptmod_ok _ _ _ hexp]
  exact unsigned_bin_size_mono (Nat.le_of_lt (Nat.mod_lt _ hpos))

/-- C12: length bound. For every successful call, and for every buffer-too-small
failure, the length reported in `*outlen` is at most the minimal unsigned byte
length of the group prime `private_key.prime`: the encoded value is a residue
modulo that prime. -/
theorem dh_shared_secret_length_bound (priv pub : dh_key) (out : List Nat) (outlen : Nat)
    (hret : (dh_shared_secret ltc_mp (some priv) (some pub) (some out) (some outlen)).err
        = CRYPT_OK ∨
      (dh_shared_secret ltc_mp (some priv) (some pub) (some out) (some outlen)).err
        = CRYPT_BUFFER_OVERFLOW) :
    ∃ n, (dh_shared_secret ltc_mp (some priv) (some pub) (some out) (some outlen)).outlen
        = some n ∧
      n = unsigned_bin_size (pub.y ^ priv.x % priv.prime) ∧
      n ≤ unsigned_bin_size priv.prime := by
  have hinit : ltc_mp.ltc_mp_init = CRYPT_OK := rfl
  have hexp : (ltc_mp.ltc_mp_exptmod pub.y priv.x priv.prime).1 = CRYPT_OK := rfl
  have hval : (ltc_mp.ltc_mp_exptmod pub.y priv.x priv.prime).2
      = pub.y ^ priv.x % priv.prime := rfl
  have hsz : ∀ v, ltc_mp.ltc_mp_unsigned_bin_size v = unsigned_bin_size v := fun _ => rfl
  have hw : ∀ v, (ltc_mp.ltc_mp_to_unsigned_bin v out).1 = CRYPT_OK := fun _ => rfl
  by_cases h1 : priv.type = PK_PRIVATE
  swap
  · exfalso
    rcases hret with h | h <;> revert h <;>
      simp [dh_shared_secret, h1, CRYPT_PK_NOT_PRIVATE, CRYPT_OK, CRYPT_BUFFER_OVERFLOW]
  by_cases h2 : ltc_mp.ltc_mp_cmp priv.prime pub.prime = LTC_MP_EQ
  swap
  · exfalso
    rcases hret with h | h <;> revert h <;>
      simp [dh_shared_secret, h1, h2, CRYPT_PK_TYPE_MISMATCH, CRYPT_OK, CRYPT_BUFFER_OVERFLOW]
  by_cases h3 : ltc_mp.ltc_mp_cmp priv.base pub.base = LTC_MP_EQ
  swap
  · exfalso
    rcases hret with h | h <;> revert h <;>
      simp [dh_shared_secret, h1, h2, h3, CRYPT_PK_TYPE_MISMATCH, CRYPT_OK,
        CRYPT_BUFFER_OVERFLOW]
  by_cases h5 : ltc_mp.dh_check_pubkey pub = CRYPT_OK
  swap
  · exfalso
    have hcode : ltc_mp.dh_check_pubkey pub = CRYPT_INVALID_ARG := by
      have hdef : ltc_mp.dh_check_pubkey pub = dh_check_pubkey pub := rfl
      rw [hdef] at h5 ⊢
      unfold dh_check_pubkey at h5 ⊢
      split
      · rename_i hin
        simp [hin] at h5
      · rfl
    rcases hret with h | h <;> revert h <;>
      simp [dh_shared_secret, error_exit, h1, h2, h3, hinit, h5, hcode, CRYPT_INVALID_ARG,
        CRYPT_OK, CRYPT_BUFFER_OVERFLOW]
  have hbound := size_le_prime_of_validates ltc_mp ltc_mp_faithful ltc_mp_validates priv pub
    h2 h5 hexp
  rw [hsz, hval] at hbound
  refine ⟨unsigned_bin_size (pub.y ^ priv.x % priv.prime), ?_, rfl, hbound⟩
  by_cases h7 : outlen < unsigned_bin_size (pub.y ^ priv.x % priv.prime)
  · simp [dh_shared_secret, error_exit, h1, h2, h3, hinit, h5, hexp, hval, hsz, h7]
  · simp [dh_shared_secret, error_exit, h1, h2, h3, hinit, h5, hexp, hval, hsz, h7, hw]

theorem dh_shared_secret_length_bound_witness :
    ((dh_shared_secret ltc_mp (some ⟨PK_PRIVATE, 6, 8, 5, 23⟩) (some ⟨PK_PUBLIC, 0, 19, 5, 23⟩)
        (some []) (some 0)).err = CRYPT_OK ∨
      (dh_shared_secret ltc_mp (some ⟨PK_PRIVATE, 6, 8, 5, 23⟩) (some ⟨PK_PUBLIC, 0, 19, 5, 23⟩)
        (some []) (some 0)).err = CRYPT_BUFFER_OVERFLOW) ∧
    ∃ n, (dh_shared_secret ltc_mp (some ⟨PK_PRIVATE, 6, 8, 5, 23⟩)
        (some ⟨PK_PUBLIC, 0, 19, 5, 23⟩) (some []) (some 0)).outlen = some n ∧
      n = unsigned_bin_size (19 ^ 6 % 23) ∧ n ≤ unsigned_bin_size 23 :=
  ⟨Or.inr (by decide),
    dh_shared_secret_length_bound ⟨PK_PRIVATE, 6, 8, 5, 23⟩ ⟨PK_PUBLIC, 0, 19, 5, 23⟩ [] 0
      (Or.inr (by decide))⟩

/-- A call returns `CRYPT_OK` only along the path on which every check passed,
every engine call succeeded and the capacity was sufficient. -/
theorem success_path_of_ok (E : Engine) (priv pub : dh_key) (out : List Nat) (outlen : Nat)
    (hok : (dh_shared_secret E (some priv) (some pub) (some out) (some outlen)).err = CRYPT_OK) :
    priv.type = PK_PRIVATE ∧
    E.ltc_mp_cmp priv.prime pub.prime = LTC_MP_EQ ∧
    E.ltc_mp_cmp priv.base pub.base = LTC_MP_EQ ∧
    E.ltc_mp_init = CRYPT_OK ∧
    E.dh_check_pubkey pub = CRYPT_OK ∧
    (E.ltc_mp_exptmod pub.y priv.x priv.prime).1 = CRYPT_OK ∧
    E.ltc_mp_unsigned_bin_size (E.ltc_mp_exptmod pub.y priv.x priv.prime).2 ≤ outlen ∧
    (E.ltc_mp_to_unsigned_bin (E.ltc_mp_exptmod pub.y priv.x priv.prime).2 out).1 = CRYPT_OK := by
  by_cases h1 : priv.type = PK_PRIVATE
  swap
  · exfalso; revert hok
    simp [dh_shared_secret, h1, CRYPT_PK_NOT_PRIVATE, CRYPT_OK]
  by_cases h2 : E.ltc_mp_cmp priv.prime pub.prime = LTC_MP_EQ
  swap
  · exfalso; revert hok
    simp [dh_shared_secret, h1, h2, CRYPT_PK_TYPE_MISMATCH, CRYPT_OK]
  by_cases h3 : E.ltc_mp_cmp priv.base pub.base = LTC_MP_EQ
  swap
  · exfalso; revert hok
    simp [dh_shared_secret, h1, h2, h3, CRYPT_PK_TYPE_MISMATCH, CRYPT_OK]
  by_cases h4 : E.ltc_mp_init = CRYPT_OK
  swap
  · exfalso; revert hok
    simp [dh_shared_secret, h1, h2, h3, h4]
  by_cases h5 : E.dh_check_pubkey pub = CRYPT_OK
  swap
  · exfalso; revert hok
    simp [dh_shared_secret, error_exit, h1, h2, h3, h4, h5]
  by_cases h6 : (E.ltc_mp_exptmod pub.y priv.x priv.prime).1 = CRYPT_OK
  swap
  · exfalso; revert hok
    simp [dh_shared_secret, error_exit, h1, h2, h3, h4, h5, h6]
  by_cases h7 : outlen < E.ltc_mp_unsigned_bin_size (E.ltc_mp_exptmod pub.y priv.x priv.prime).2
  · exfalso; revert hok
    simp [dh_shared_secret, error_exit, h1, h2, h3, h4, h5, h6, h7, CRYPT_BUFFER_OVERFLOW,
      CRYPT_OK]
  by_cases h8 : (E.ltc_mp_to_unsigned_bin (E.ltc_mp_exptmod pub.y priv.x priv.prime).2 out).1
      = CRYPT_OK
  swap
  · exfalso; revert hok
    simp [dh_shared_secret, error_exit, h1, h2, h3, h4, h5, h6, h7, h8]
  exact ⟨h1, h2, h3, h4, h5, h6, Nat.not_lt.mp h7, h8⟩

/-- The outcome of a successful call with an engine that meets the contract. -/
theorem outcome_of_ok (E : Engine) (hE : E.Faithful) (priv pub : dh_key)
    (out : List Nat) (outlen : Nat)
    (hok : (dh_shared_secret E (some priv) (some pub) (some out) (some outlen)).err = CRYPT_OK) :
    dh_shared_secret E (some priv) (some pub) (some out) (some outlen) =
      error_exit CRYPT_OK
        (be_bytes (pub.y ^ priv.x % priv.prime)
          ++ out.drop (unsigned_bin_size (pub.y ^ priv.x % priv.prime)))
        (unsigned_bin_size (pub.y ^ priv.x % priv.prime))
        [Call.mp_cmp, Call.mp_cmp, Call.mp_init, Call.check_pubkey, Call.mp_exptmod,
          Call.mp_unsigned_bin_size, Call.mp_to_unsigned_bin] := by
  obtain ⟨h1, h2, h3, h4, h5, h6, h7, h8⟩ := success_path_of_ok E priv pub out outlen hok
  have hv := hE.exptmod_ok _ _ _ h6
  rw [run_success E priv pub out outlen h1 h2 h3 h4 h5 h6 h7 h8]
  rw [hv] at h8 ⊢
  rw [hE.size_eq, hE.write_ok _ _ h8]

/-- C13: minimal-encoding round trip. For every successful call, decoding the
`*outlen` bytes written to `out` as an unsigned big-endian integer gives
`y ^ x mod p`, and encoding that integer again as minimal unsigned big-endian
bytes reproduces the same byte sequence; the first byte is non-zero whenever
`*outlen > 0`, every byte is below 256, and no byte is missing. -/
theorem dh_shared_secret_round_trip (E : Engine) (hE : E.Faithful) (priv pub : dh_key)
    (out : List Nat) (outlen : Nat)
    (hok : (dh_shared_secret E (some priv) (some pub) (some out) (some outlen)).err = CRYPT_OK) :
    ∃ bytes : List Nat,
      (dh_shared_secret E (some priv) (some pub) (some out) (some outlen)).outlen
        = some bytes.length ∧
      (dh_shared_secret E (some priv) (some pub) (some out) (some outlen)).out.map
        (List.take bytes.length) = some bytes ∧
      be_value bytes = pub.y ^ priv.x % priv.prime ∧
      be_bytes (be_value bytes) = bytes ∧
      (0 < bytes.length → ∃ b, bytes.head? = some b ∧ b ≠ 0) ∧
      ∀ b ∈ bytes, b < 256 := by
  rw [outcome_of_ok E hE priv pub out outlen hok]
  refine ⟨be_bytes (pub.y ^ priv.x % priv.prime), rfl, ?_, be_value_be_bytes _, ?_, ?_,
    fun b hb => be_bytes_lt _ b hb⟩
  · have h := take_size_encoding (pub.y ^ priv.x % priv.prime) out
    simp only [unsigned_bin_size] at h
    simp [error_exit, unsigned_bin_size, h]
  · rw [be_value_be_bytes]
  · intro hpos
    have hne := be_bytes_head_ne_zero (pub.y ^ priv.x % priv.prime)
    cases hb : be_bytes (pub.y ^ priv.x % priv.prime) with
    | nil => rw [hb] at hpos; exact absurd hpos (by simp)
    | cons b rest =>
      rw [hb] at hne
      refine ⟨b, rfl, ?_⟩
      intro hz
      apply hne
      simp [hz]

theorem dh_shared_secret_round_trip_witness :
    ltc_mp.Faithful ∧
    (dh_shared_secret ltc_mp (some ⟨PK_PRIVATE, 5, 243, 3, 65537⟩)
      (some ⟨PK_PUBLIC, 0, 65535, 3, 65537⟩) (some [0, 0, 0, 0]) (some 4)).err = CRYPT_OK ∧
    ∃ bytes : List Nat,
      (dh_shared_secret ltc_mp (some ⟨PK_PRIVATE, 5, 243, 3, 65537⟩)
        (some ⟨PK_PUBLIC, 0, 65535, 3, 65537⟩) (some [0, 0, 0, 0]) (some 4)).outlen
        = some bytes.length ∧
      (dh_shared_secret ltc_mp (some ⟨PK_PRIVATE, 5, 243, 3, 65537⟩)
        (some ⟨PK_PUBLIC, 0, 65535, 3, 65537⟩) (some [0, 0, 0, 0]) (some 4)).out.map
        (List.take bytes.length) = some bytes ∧
      be_value bytes = 65535 ^ 5 % 65537 ∧
      be_bytes (be_value bytes) = bytes ∧
      (0 < bytes.length → ∃ b, bytes.head? = some b ∧ b ≠ 0) ∧
      ∀ b ∈ bytes, b < 256 :=
  ⟨ltc_mp_faithful, by decide,
    dh_shared_secret_round_trip ltc_mp ltc_mp_faithful ⟨PK_PRIVATE, 5, 243, 3, 65537⟩
      ⟨PK_PUBLIC, 0, 65535, 3, 65537⟩ [0, 0, 0, 0] 4 (by decide)⟩

/-- C14: absent arguments. When `private_key`, `public_key`, `out` or `outlen` is
a null reference, the call reports `CRYPT_INVALID_ARG`, performs no key check
and no arithmetic (no collaborator is called), and writes nothing: the memory
behind `out` and `outlen` is as it was. -/
theorem dh_shared_secret_absent_argument (E : Engine) (private_key public_key : Option dh_key)
    (out : Option (List Nat)) (outlen : Option Nat)
    (hnull : private_key = none ∨ public_key = none ∨ out = none ∨ outlen = none) :
    dh_shared_secret E private_key public_key out outlen
      = ⟨CRYPT_INVALID_ARG, out, outlen, []⟩ := by
  rcases hnull with h | h | h | h <;> subst h
  · simp [dh_shared_secret]
  · cases private_key <;> simp [dh_shared_secret]
  · cases private_key <;> cases public_key <;> simp [dh_shared_secret]
  · cases private_key <;> cases public_key <;> cases out <;> simp [dh_shared_secret]

theorem dh_shared_secret_absent_argument_witness :
    ((some ⟨PK_PRIVATE, 6, 8, 5, 23⟩ : Option dh_key) = none ∨ (none : Option dh_key) = none ∨
      some [1, 2] = none ∨ some 2 = none) ∧
    dh_shared_secret ltc_mp (some ⟨PK_PRIVATE, 6, 8, 5, 23⟩) none (some [1, 2]) (some 2)
      = ⟨CRYPT_INVALID_ARG, some [1, 2], some 2, []⟩ :=
  ⟨Or.inr (Or.inl rfl),
    dh_shared_secret_absent_argument ltc_mp (some ⟨PK_PRIVATE, 6, 8, 5, 23⟩) none (some [1, 2])
      (some 2) (Or.inr (Or.inl rfl))⟩

/-- C15: arithmetic failure is terminal and surfaced. For a call that passes the
role and group checks, if an engine call (`ltc_mp_init`, or `ltc_mp_exptmod`
after a passed validation, or `ltc_mp_to_unsigned_bin` after a passed size
check) reports a code `e` other than `CRYPT_OK`, the call returns exactly `e`,
does not report success, does not update `*outlen`, and has called each of the
three engine functions at most once. -/
theorem dh_shared_secret_engine_error (E : Engine) (priv pub : dh_key)
    (out : List Nat) (outlen : Nat) (e : Int)
    (htype : priv.type = PK_PRIVATE)
    (hprime : E.ltc_mp_cmp priv.prime pub.prime = LTC_MP_EQ)
    (hbase : E.ltc_mp_cmp priv.base pub.base = LTC_MP_EQ)
    (he : e ≠ CRYPT_OK)
    (hfail : E.ltc_mp_init = e ∨
      (E.ltc_mp_init = CRYPT_OK ∧ E.dh_check_pubkey pub = CRYPT_OK ∧
        (E.ltc_mp_exptmod pub.y priv.x priv.prime).1 = e) ∨
      (E.ltc_mp_init = CRYPT_OK ∧ E.dh_check_pubkey pub = CRYPT_OK ∧
        (E.ltc_mp_exptmod pub.y priv.x priv.prime).1 = CRYPT_OK ∧
        E.ltc_mp_unsigned_bin_size (E.ltc_mp_exptmod pub.y priv.x priv.prime).2 ≤ outlen ∧
        (E.ltc_mp_to_unsigned_bin (E.ltc_mp_exptmod pub.y priv.x priv.prime).2 out).1 = e)) :
    (dh_shared_secret E (some priv) (some pub) (some out) (some outlen)).err = e ∧
    (dh_shared_secret E (some priv) (some pub) (some out) (some outlen)).err ≠ CRYPT_OK ∧
    (dh_shared_secret E (some priv) (some pub) (some out) (some outlen)).outlen
      = some outlen ∧
    (dh_shared_secret E (some priv) (some pub) (some out) (some outlen)).calls.count
      Call.mp_init ≤ 1 ∧
    (dh_shared_secret E (some priv) (some pub) (some out) (some outlen)).calls.count
      Call.mp_exptmod ≤ 1 ∧
    (dh_shared_secret E (some priv) (some pub) (some out) (some outlen)).calls.count
      Call.mp_to_unsigned_bin ≤ 1 := by
  rcases hfail with h | ⟨h4, h5, h6⟩ | ⟨h4, h5, h6, h7, h8⟩
  · subst h
    simp [dh_shared_secret, htype, hprime, hbase, he]
  · subst h6
    simp [dh_shared_secret, error_exit, htype, hprime, hbase, h4, h5, he]
  · subst h8
    simp [dh_shared_secret, error_exit, htype, hprime, hbase, h4, h5, h6, Nat.not_lt.mpr h7, he]

theorem dh_shared_secret_engine_error_witness :
    CRYPT_MEM ≠ CRYPT_OK ∧
    (ltc_mp_write_fails.ltc_mp_to_unsigned_bin
      (ltc_mp_write_fails.ltc_mp_exptmod 19 6 23).2 [9, 9]).1 = CRYPT_MEM ∧
    (dh_shared_secret ltc_mp_write_fails (some ⟨PK_PRIVATE, 6, 8, 5, 23⟩)
      (some ⟨PK_PUBLIC, 0, 19, 5, 23⟩) (some [9, 9]) (some 2)).err = CRYPT_MEM ∧
    (dh_shared_secret ltc_mp_write_fails (some ⟨PK_PRIVATE, 6, 8, 5, 23⟩)
      (some ⟨PK_PUBLIC, 0, 19, 5, 23⟩) (some [9, 9]) (some 2)).outlen = some 2 :=
  have h := dh_shared_secret_engine_error ltc_mp_write_fails ⟨PK_PRIVATE, 6, 8, 5, 23⟩
    ⟨PK_PUBLIC, 0, 19, 5, 23⟩ [9, 9] 2 CRYPT_MEM rfl rfl rfl (by decide)
    (Or.inr (Or.inr ⟨rfl, by decide, rfl, by decide, rfl⟩))
  ⟨by decide, rfl, h.1, h.2.2.1⟩

/-- The returned code is that of the first failing step of the five-step
sequence, for every engine whose `ltc_mp_init` succeeds. -/
theorem claimed_step_of_init (E : Engine) (priv pub : dh_key) (out : List Nat)
    (outlen : Nat) (e : Int) (hinit : E.ltc_mp_init = CRYPT_OK)
    (hstep : claimed_first_failing_step E priv pub outlen = some e) :
    (dh_shared_secret E (some priv) (some pub) (some out) (some outlen)).err = e := by
  unfold claimed_first_failing_step at hstep
  by_cases h1 : priv.type = PK_PRIVATE
  swap
  · simp [h1] at hstep
    simp [dh_shared_secret, h1, hstep]
  by_cases h2 : E.ltc_mp_cmp priv.prime pub.prime = LTC_MP_EQ
  swap
  · simp [h1, h2] at hstep
    simp [dh_shared_secret, h1, h2, hstep]
  by_cases h3 : E.ltc_mp_cmp priv.base pub.base = LTC_MP_EQ
  swap
  · simp [h1, h2, h3] at hstep
    simp [dh_shared_secret, h1, h2, h3, hstep]
  by_cases h5 : E.dh_check_pubkey pub = CRYPT_OK
  swap
  · simp [h1, h2, h3, h5] at hstep
    subst hstep
    simp [dh_shared_secret, error_exit, h1, h2, h3, hinit, h5]
  by_cases h6 : (E.ltc_mp_exptmod pub.y priv.x priv.prime).1 = CRYPT_OK
  swap
  · simp [h1, h2, h3, h5, h6] at hstep
    subst hstep
    simp [dh_shared_secret, error_exit, h1, h2, h3, hinit, h5, h6]
  by_cases h7 : outlen < E.ltc_mp_unsigned_bin_size (E.ltc_mp_exptmod pub.y priv.x priv.prime).2
  · simp [h1, h2, h3, h5, h6, h7] at hstep
    simp [dh_shared_secret, error_exit, h1, h2, h3, hinit, h5, h6, h7, hstep]
  · simp [h1, h2, h3, h5, h6, h7] at hstep

/-- C16 as stated fails: with a private key of the same group, an invalid public
value (1) and a capacity that is too small (0), the first failing step of the
five-step sequence is the validation, with error `CRYPT_INVALID_ARG`; but the
temporary is initialised between the group check and the validation, and when
`ltc_mp_init` reports `CRYPT_MEM` the call returns `CRYPT_MEM`, the validator
not being reached. -/
theorem check_order_with_init_failure :
    (⟨PK_PRIVATE, 6, 8, 5, 23⟩ : dh_key).type = PK_PRIVATE ∧
    ltc_mp_init_fails.ltc_mp_cmp 23 23 = LTC_MP_EQ ∧
    ltc_mp_init_fails.ltc_mp_cmp 5 5 = LTC_MP_EQ ∧
    ltc_mp_init_fails.dh_check_pubkey ⟨PK_PUBLIC, 0, 1, 5, 23⟩ = CRYPT_INVALID_ARG ∧
    0 < ltc_mp_init_fails.ltc_mp_unsigned_bin_size (1 ^ 6 % 23) ∧
    claimed_first_failing_step ltc_mp_init_fails ⟨PK_PRIVATE, 6, 8, 5, 23⟩
      ⟨PK_PUBLIC, 0, 1, 5, 23⟩ 0 = some CRYPT_INVALID_ARG ∧
    dh_shared_secret ltc_mp_init_fails (some ⟨PK_PRIVATE, 6, 8, 5, 23⟩)
        (some ⟨PK_PUBLIC, 0, 1, 5, 23⟩) (some []) (some 0)
      = ⟨CRYPT_MEM, some [], some 0, [Call.mp_cmp, Call.mp_cmp, Call.mp_init]⟩ ∧
    CRYPT_MEM ≠ CRYPT_INVALID_ARG := by
  decide

/-- C16, amended: order of the checks. The error returned is that of the first
failing step in the sequence role check, group check, initialisation of the
temporary (`ltc_mp_init`), public-key validation, exponentiation, buffer-size
check. In particular: a non-private private key with a mismatched group yields
`CRYPT_PK_NOT_PRIVATE`; a private key of type `PK_PRIVATE` with a mismatched
group and an invalid public value yields `CRYPT_PK_TYPE_MISMATCH`; and a
same-group call with a private key of type `PK_PRIVATE` and a successful
`ltc_mp_init`, an invalid public value and a capacity that is too small yields
the validator's error with `*outlen` unchanged, the buffer-size check not being
reached. -/
theorem dh_shared_secret_check_order (E : Engine) (hE : E.Faithful) (priv pub : dh_key)
    (out : List Nat) (outlen : Nat) :
    (∀ e, first_failing_step E priv pub outlen = some e →
      (dh_shared_secret E (some priv) (some pub) (some out) (some outlen)).err = e) ∧
    (priv.type ≠ PK_PRIVATE →
      (dh_shared_secret E (some priv) (some pub) (some out) (some outlen)).err
        = CRYPT_PK_NOT_PRIVATE) ∧
    (priv.type = PK_PRIVATE → priv.prime ≠ pub.prime ∨ priv.base ≠ pub.base →
      (dh_shared_secret E (some priv) (some pub) (some out) (some outlen)).err
        = CRYPT_PK_TYPE_MISMATCH) ∧
    (priv.type = PK_PRIVATE → priv.prime = pub.prime → priv.base = pub.base →
      E.ltc_mp_init = CRYPT_OK → E.dh_check_pubkey pub ≠ CRYPT_OK →
      (dh_shared_secret E (some priv) (some pub) (some out) (some outlen)).err
        = E.dh_check_pubkey pub ∧
      (dh_shared_secret E (some priv) (some pub) (some out) (some outlen)).outlen
        = some outlen ∧
      Call.mp_unsigned_bin_size ∉
        (dh_shared_secret E (some priv) (some pub) (some out) (some outlen)).calls) := by
  have hcmp := hE.cmp_eq
  refine ⟨?_, ?_, ?_, ?_⟩
  · intro e hstep
    unfold first_failing_step at hstep
    by_cases h1 : priv.type = PK_PRIVATE
    swap
    · simp [h1] at hstep
      simp [dh_shared_secret, h1, hstep]
    by_cases h2 : E.ltc_mp_cmp priv.prime pub.prime = LTC_MP_EQ
    swap
    · simp [h1, h2] at hstep
      simp [dh_shared_secret, h1, h2, hstep]
    by_cases h3 : E.ltc_mp_cmp priv.base pub.base = LTC_MP_EQ
    swap
    · simp [h1, h2, h3] at hstep
      simp [dh_shared_secret, h1, h2, h3, hstep]
    by_cases h4 : E.ltc_mp_init = CRYPT_OK
    swap
    · simp [h1, h2, h3, h4] at hstep
      subst hstep
      simp [dh_shared_secret, h1, h2, h3, h4]
    exact claimed_step_of_init E priv pub out outlen e h4
      (by unfold claimed_first_failing_step; simpa [h4] using hstep)
  · intro h1
    simp [dh_shared_secret, h1]
  · intro h1 hgroup
    by_cases h2 : priv.prime = pub.prime
    · have h3 : priv.base ≠ pub.base := by
        rcases hgroup with h | h
        · exact absurd h2 h
        · exact h
      simp [dh_shared_secret, h1, (hcmp _ _).mpr h2, mt (hcmp _ _).mp h3]
    · simp [dh_shared_secret, h1, mt (hcmp _ _).mp h2]
  · intro h1 h2 h3 h4 h5
    simp [dh_shared_secret, error_exit, h1, (hcmp _ _).mpr h2, (hcmp _ _).mpr h3, h4, h5]

theorem dh_shared_secret_check_order_witness :
    ltc_mp_init_fails.Faithful ∧
    first_failing_step ltc_mp_init_fails ⟨PK_PRIVATE, 6, 8, 5, 23⟩ ⟨PK_PUBLIC, 0, 1, 5, 23⟩ 0
      = some CRYPT_MEM ∧
    (dh_shared_secret ltc_mp_init_fails (some ⟨PK_PRIVATE, 6, 8, 5, 23⟩)
      (some ⟨PK_PUBLIC, 0, 1, 5, 23⟩) (some []) (some 0)).err = CRYPT_MEM ∧
    (dh_shared_secret ltc_mp_init_fails (some ⟨PK_PRIVATE, 6, 8, 5, 23⟩)
      (some ⟨PK_PUBLIC, 0, 22, 7, 23⟩) (some []) (some 0)).err = CRYPT_PK_TYPE_MISMATCH ∧
    ltc_mp.dh_check_pubkey ⟨PK_PUBLIC, 0, 1, 5, 23⟩ ≠ CRYPT_OK ∧
    (dh_shared_secret ltc_mp (some ⟨PK_PRIVATE, 6, 8, 5, 23⟩)
      (some ⟨PK_PUBLIC, 0, 1, 5, 23⟩) (some []) (some 0)).err
      = ltc_mp.dh_check_pubkey ⟨PK_PUBLIC, 0, 1, 5, 23⟩ ∧
    (dh_shared_secret ltc_mp (some ⟨PK_PRIVATE, 6, 8, 5, 23⟩)
      (some ⟨PK_PUBLIC, 0, 1, 5, 23⟩) (some []) (some 0)).outlen = some 0 :=
  have hF : ltc_mp_init_fails.Faithful :=
    ⟨ltc_mp_faithful.cmp_eq, fun _ _ _ _ => rfl, fun _ => rfl, fun _ _ _ => rfl⟩
  ⟨hF,
    by decide,
    (dh_shared_secret_check_order ltc_mp_init_fails hF ⟨PK_PRIVATE, 6, 8, 5, 23⟩
      ⟨PK_PUBLIC, 0, 1, 5, 23⟩ [] 0).1 CRYPT_MEM (by decide),
    (dh_shared_secret_check_order ltc_mp_init_fails hF ⟨PK_PRIVATE, 6, 8, 5, 23⟩
      ⟨PK_PUBLIC, 0, 22, 7, 23⟩ [] 0).2.2.1 rfl (Or.inr (by decide)),
    by decide,
    ((dh_shared_secret_check_order ltc_mp ltc_mp_faithful ⟨PK_PRIVATE, 6, 8, 5, 23⟩
      ⟨PK_PUBLIC, 0, 1, 5, 23⟩ [] 0).2.2.2 rfl rfl rfl rfl (by decide)).1,
    ((dh_shared_secret_check_order ltc_mp ltc_mp_faithful ⟨PK_PRIVATE, 6, 8, 5, 23⟩
      ⟨PK_PUBLIC, 0, 1, 5, 23⟩ [] 0).2.2.2 rfl rfl rfl rfl (by decide)).2.1⟩

/-- C17: frame of the size parameter. For non-null arguments, `*outlen` is
modified only on success and on the buffer-too-small failure, and in both cases
becomes the minimal encoding length `n` of the shared secret; on every other
failure (not private, group mismatch, init failure, invalid public key,
exponentiation failure, encode failure) it keeps the capacity passed in. -/
theorem dh_shared_secret_outlen_frame (E : Engine) (hE : E.Faithful) (priv pub : dh_key)
    (out : List Nat) (outlen : Nat) :
    ((dh_shared_secret E (some priv) (some pub) (some out) (some outlen)).err = CRYPT_OK →
      (dh_shared_secret E (some priv) (some pub) (some out) (some outlen)).outlen
        = some (unsigned_bin_size (pub.y ^ priv.x % priv.prime))) ∧
    (buffer_too_small E priv pub outlen →
      (dh_shared_secret E (some priv) (some pub) (some out) (some outlen)).err
        = CRYPT_BUFFER_OVERFLOW ∧
      (dh_shared_secret E (some priv) (some pub) (some out) (some outlen)).outlen
        = some (unsigned_bin_size (pub.y ^ priv.x % priv.prime))) ∧
    ((dh_shared_secret E (some priv) (some pub) (some out) (some outlen)).err ≠ CRYPT_OK →
      ¬ buffer_too_small E priv pub outlen →
      (dh_shared_secret E (some priv) (some pub) (some out) (some outlen)).outlen
        = some outlen) ∧
    ((dh_shared_secret E (some priv) (some pub) (some out) (some outlen)).outlen
        ≠ some outlen →
      (dh_shared_secret E (some priv) (some pub) (some out) (some outlen)).err = CRYPT_OK ∨
      (dh_shared_secret E (some priv) (some pub) (some out) (some outlen)).err
        = CRYPT_BUFFER_OVERFLOW) := by
  have hsmall : buffer_too_small E priv pub outlen →
      (dh_shared_secret E (some priv) (some pub) (some out) (some outlen)).err
        = CRYPT_BUFFER_OVERFLOW ∧
      (dh_shared_secret E (some priv) (some pub) (some out) (some outlen)).outlen
        = some (unsigned_bin_size (pub.y ^ priv.x % priv.prime)) := by
    rintro ⟨h1, h2, h3, h4, h5, h6, h7⟩
    have hv := hE.exptmod_ok _ _ _ h6
    have hn : E.ltc_mp_unsigned_bin_size (E.ltc_mp_exptmod pub.y priv.x priv.prime).2
        = unsigned_bin_size (pub.y ^ priv.x % priv.prime) := by rw [hE.size_eq, hv]
    rw [hn] at h7
    simp [dh_shared_secret, error_exit, h1, h2, h3, h4, h5, h6, h7, hn]
  have hkeep : (dh_shared_secret E (some priv) (some pub) (some out) (some outlen)).err
        ≠ CRYPT_OK → ¬ buffer_too_small E priv pub outlen →
      (dh_shared_secret E (some priv) (some pub) (some out) (some outlen)).outlen
        = some outlen := by
    intro hne hns
    by_cases h1 : priv.type = PK_PRIVATE
    swap
    · simp [dh_shared_secret, h1]
    by_cases h2 : E.ltc_mp_cmp priv.prime pub.prime = LTC_MP_EQ
    swap
    · simp [dh_shared_secret, h1, h2]
    by_cases h3 : E.ltc_mp_cmp priv.base pub.base = LTC_MP_EQ
    swap
    · simp [dh_shared_secret, h1, h2, h3]
    by_cases h4 : E.ltc_mp_init = CRYPT_OK
    swap
    · simp [dh_shared_secret, h1, h2, h3, h4]
    by_cases h5 : E.dh_check_pubkey pub = CRYPT_OK
    swap
    · simp [dh_shared_secret, error_exit, h1, h2, h3, h4, h5]
    by_cases h6 : (E.ltc_mp_exptmod pub.y priv.x priv.prime).1 = CRYPT_OK
    swap
    · simp [dh_shared_secret, error_exit, h1, h2, h3, h4, h5, h6]
    by_cases h7 : outlen < E.ltc_mp_unsigned_bin_size (E.ltc_mp_exptmod pub.y priv.x priv.prime).2
    · exact absurd ⟨h1, h2, h3, h4, h5, h6, h7⟩ hns
    by_cases h8 : (E.ltc_mp_to_unsigned_bin (E.ltc_mp_exptmod pub.y priv.x priv.prime).2 out).1
        = CRYPT_OK
    · exfalso
      apply hne
      simp [dh_shared_secret, error_exit, h1, h2, h3, h4, h5, h6, h7, h8]
    · simp [dh_shared_secret, error_exit, h1, h2, h3, h4, h5, h6, h7, h8]
  refine ⟨?_, hsmall, hkeep, ?_⟩
  · intro hok
    rw [outcome_of_ok E hE priv pub out outlen hok]
    rfl
  · intro hmod
    by_cases hok : (dh_shared_secret E (some priv) (some pub) (some out) (some outlen)).err
        = CRYPT_OK
    · exact Or.inl hok
    · by_cases hs : buffer_too_small E priv pub outlen
      · exact Or.inr (hsmall hs).1
      · exact absurd (hkeep hok hs) hmod

theorem dh_shared_secret_outlen_frame_witness :
    ltc_mp.Faithful ∧ buffer_too_small ltc_mp ⟨PK_PRIVATE, 5, 243, 3, 65537⟩
      ⟨PK_PUBLIC, 0, 65535, 3, 65537⟩ 1 ∧
    (dh_shared_secret ltc_mp (some ⟨PK_PRIVATE, 5, 243, 3, 65537⟩)
      (some ⟨PK_PUBLIC, 0, 65535, 3, 65537⟩) (some [0]) (some 1)).err = CRYPT_BUFFER_OVERFLOW ∧
    (dh_shared_secret ltc_mp (some ⟨PK_PRIVATE, 5, 243, 3, 65537⟩)
      (some ⟨PK_PUBLIC, 0, 65535, 3, 65537⟩) (some [0]) (some 1)).outlen
      = some (unsigned_bin_size (65535 ^ 5 % 65537)) :=
  have hs : buffer_too_small ltc_mp ⟨PK_PRIVATE, 5, 243, 3, 65537⟩
      ⟨PK_PUBLIC, 0, 65535, 3, 65537⟩ 1 := ⟨rfl, rfl, rfl, rfl, by decide, rfl, by decide⟩
  ⟨ltc_mp_faithful, hs,
    (dh_shared_secret_outlen_frame ltc_mp ltc_mp_faithful ⟨PK_PRIVATE, 5, 243, 3, 65537⟩
      ⟨PK_PUBLIC, 0, 65535, 3, 65537⟩ [0] 1).2.1 hs⟩

theorem index_past_encoding (bytes out : List Nat) (i : Nat) (hi : bytes.length ≤ i) :
    (bytes ++ out.drop bytes.length)[i]? = out[i]? := by
  rw [List.getElem?_append_right hi, List.getElem?_drop]
  congr 1
  omega

/-- C18: frame of the output buffer on success. For every successful call, only
the first `n` bytes of `out` are written, `n` being the encoding length: the
buffer from index `n` on is as before the call, so every byte at an index `i`
with `n ≤ i` (in particular below a capacity greater than `n`) has the value it
had; the result is not padded to the capacity or to the length of the prime. -/
theorem dh_shared_secret_out_frame (E : Engine) (hE : E.Faithful) (priv pub : dh_key)
    (out : List Nat) (outlen : Nat)
    (hok : (dh_shared_secret E (some priv) (some pub) (some out) (some outlen)).err = CRYPT_OK) :
    ∃ buf : List Nat,
      (dh_shared_secret E (some priv) (some pub) (some out) (some outlen)).out = some buf ∧
      (dh_shared_secret E (some priv) (some pub) (some out) (some outlen)).outlen
        = some (unsigned_bin_size (pub.y ^ priv.x % priv.prime)) ∧
      unsigned_bin_size (pub.y ^ priv.x % priv.prime) ≤ outlen ∧
      buf.take (unsigned_bin_size (pub.y ^ priv.x % priv.prime))
        = be_bytes (pub.y ^ priv.x % priv.prime) ∧
      buf.drop (unsigned_bin_size (pub.y ^ priv.x % priv.prime))
        = out.drop (unsigned_bin_size (pub.y ^ priv.x % priv.prime)) ∧
      ∀ i, unsigned_bin_size (pub.y ^ priv.x % priv.prime) ≤ i → buf[i]? = out[i]? := by
  have hpath := success_path_of_ok E priv pub out outlen hok
  have hcap : unsigned_bin_size (pub.y ^ priv.x % priv.prime) ≤ outlen := by
    have h7 := hpath.2.2.2.2.2.2.1
    rw [hE.size_eq, hE.exptmod_ok _ _ _ hpath.2.2.2.2.2.1] at h7
    exact h7
  rw [outcome_of_ok E hE priv pub out outlen hok]
  refine ⟨_, rfl, rfl, hcap, take_size_encoding _ _, ?_, ?_⟩
  · simp [unsigned_bin_size]
  · intro i hi
    exact index_past_encoding _ out i hi

theorem dh_shared_secret_out_frame_witness :
    ltc_mp.Faithful ∧
    (dh_shared_secret ltc_mp (some ⟨PK_PRIVATE, 5, 243, 3, 65537⟩)
      (some ⟨PK_PUBLIC, 0, 65535, 3, 65537⟩) (some [1, 2, 3, 4]) (some 4)).err = CRYPT_OK ∧
    (dh_shared_secret ltc_mp (some ⟨PK_PRIVATE, 5, 243, 3, 65537⟩)
      (some ⟨PK_PUBLIC, 0, 65535, 3, 65537⟩) (some [1, 2, 3, 4]) (some 4)).out
      = some [255, 225, 3, 4] ∧
    ∃ buf : List Nat,
      (dh_shared_secret ltc_mp (some ⟨PK_PRIVATE, 5, 243, 3, 65537⟩)
        (some ⟨PK_PUBLIC, 0, 65535, 3, 65537⟩) (some [1, 2, 3, 4]) (some 4)).out = some buf ∧
      (dh_shared_secret ltc_mp (some ⟨PK_PRIVATE, 5, 243, 3, 65537⟩)
        (some ⟨PK_PUBLIC, 0, 65535, 3, 65537⟩) (some [1, 2, 3, 4]) (some 4)).outlen
        = some (unsigned_bin_size (65535 ^ 5 % 65537)) ∧
      unsigned_bin_size (65535 ^ 5 % 65537) ≤ 4 ∧
      buf.take (unsigned_bin_size (65535 ^ 5 % 65537)) = be_bytes (65535 ^ 5 % 65537) ∧
      buf.drop (unsigned_bin_size (65535 ^ 5 % 65537))
        = [1, 2, 3, 4].drop (unsigned_bin_size (65535 ^ 5 % 65537)) ∧
      ∀ i, unsigned_bin_size (65535 ^ 5 % 65537) ≤ i → buf[i]? = [1, 2, 3, 4][i]? :=
  ⟨ltc_mp_faithful, by decide, by decide,
    dh_shared_secret_out_frame ltc_mp ltc_mp_faithful ⟨PK_PRIVATE, 5, 243, 3, 65537⟩
      ⟨PK_PUBLIC, 0, 65535, 3, 65537⟩ [1, 2, 3, 4] 4 (by decide)⟩

/-- C19: scratch release on every exit path. In every execution in which the
temporary is acquired (`ltc_mp_init` is called and succeeds), `ltc_mp_clear` is
called exactly once, as the last call before the return, whichever path is
taken; in every execution that returns before or at a failed `ltc_mp_init`
(absent argument, not private, group mismatch, init failure) `ltc_mp_clear` is
not called. -/
theorem dh_shared_secret_scratch_release (E : Engine) (private_key public_key : Option dh_key)
    (out : Option (List Nat)) (outlen : Option Nat) :
    ((Call.mp_init ∈ (dh_shared_secret E private_key public_key out outlen).calls ∧
        E.ltc_mp_init = CRYPT_OK) →
      (dh_shared_secret E private_key public_key out outlen).calls.count Call.mp_clear = 1 ∧
      (dh_shared_secret E private_key public_key out outlen).calls.getLast?
        = some Call.mp_clear) ∧
    (¬ (Call.mp_init ∈ (dh_shared_secret E private_key public_key out outlen).calls ∧
        E.ltc_mp_init = CRYPT_OK) →
      (dh_shared_secret E private_key public_key out outlen).calls.count Call.mp_clear = 0) := by
  rcases private_key with _ | priv
  · simp [dh_shared_secret]
  rcases public_key with _ | pub
  · simp [dh_shared_secret]
  rcases out with _ | buf
  · simp [dh_shared_secret]
  rcases outlen with _ | len
  · simp [dh_shared_secret]
  by_cases h1 : priv.type = PK_PRIVATE
  swap
  · simp [dh_shared_secret, h1]
  by_cases h2 : E.ltc_mp_cmp priv.prime pub.prime = LTC_MP_EQ
  swap
  · simp [dh_shared_secret, h1, h2]
  by_cases h3 : E.ltc_mp_cmp priv.base pub.base = LTC_MP_EQ
  swap
  · simp [dh_shared_secret, h1, h2, h3]
  by_cases h4 : E.ltc_mp_init = CRYPT_OK
  swap
  · simp [dh_shared_secret, h1, h2, h3, h4]
  by_cases h5 : E.dh_check_pubkey pub = CRYPT_OK
  swap
  · simp [dh_shared_secret, error_exit, h1, h2, h3, h4, h5]
  by_cases h6 : (E.ltc_mp_exptmod pub.y priv.x priv.prime).1 = CRYPT_OK
  swap
  · simp [dh_shared_secret, error_exit, h1, h2, h3, h4, h5, h6]
  by_cases h7 : len < E.ltc_mp_unsigned_bin_size (E.ltc_mp_exptmod pub.y priv.x priv.prime).2
  · simp [dh_shared_secret, error_exit, h1, h2, h3, h4, h5, h6, h7]
  by_cases h8 : (E.ltc_mp_to_unsigned_bin (E.ltc_mp_exptmod pub.y priv.x priv.prime).2 buf).1
      = CRYPT_OK
  · simp [dh_shared_secret, error_exit, h1, h2, h3, h4, h5, h6, h7, h8]
  · simp [dh_shared_secret, error_exit, h1, h2, h3, h4, h5, h6, h7, h8]

theorem dh_shared_secret_scratch_release_witness :
    (Call.mp_init ∈ (dh_shared_secret ltc_mp (some ⟨PK_PRIVATE, 6, 8, 5, 23⟩)
        (some ⟨PK_PUBLIC, 0, 1, 5, 23⟩) (some [1]) (some 1)).calls ∧
      ltc_mp.ltc_mp_init = CRYPT_OK) ∧
    (dh_shared_secret ltc_mp (some ⟨PK_PRIVATE, 6, 8, 5, 23⟩)
      (some ⟨PK_PUBLIC, 0, 1, 5, 23⟩) (some [1]) (some 1)).calls.count Call.mp_clear = 1 ∧
    (dh_shared_secret ltc_mp (some ⟨PK_PRIVATE, 6, 8, 5, 23⟩)
      (some ⟨PK_PUBLIC, 0, 1, 5, 23⟩) (some [1]) (some 1)).calls.getLast?
      = some Call.mp_clear :=
  ⟨⟨by decide, rfl⟩,
    (dh_shared_secret_scratch_release ltc_mp (some ⟨PK_PRIVATE, 6, 8, 5, 23⟩)
      (some ⟨PK_PUBLIC, 0, 1, 5, 23⟩) (some [1]) (some 1)).1 ⟨by decide, rfl⟩⟩

end DH
